import Mathlib

/-!
Shallow embedding of the `koopman-checksum` Rust crate (`src/lib.rs`) and proofs
about it.

Modelling conventions:
* byte sequences (`&[u8]`) are `List ℕ` together with the hypothesis that every
  element is `< 256`; seeds (`u8`) are `ℕ` with the hypothesis `< 256`;
* machine integers are `ℕ` with explicit wraparound: `x << 8` on a `uW` value is
  `(x <<< 8) % 2^W`, additions wrap with `% 2^W`, and `as u8`/`as u16`/`as u32`
  casts are `% 2^8` / `% 2^16` / `% 2^32`;
* the `NonZeroU32`/`NonZeroU64` modulus arguments become a `ℕ` argument together
  with a `0 < modulus` hypothesis where a claim needs it.
-/

set_option maxRecDepth 4000000

/-! ### Constants (`src/lib.rs`, lines 13-34) -/

def MODULUS_8 : ℕ := 253
def MODULUS_16 : ℕ := 65519
def MODULUS_32 : ℕ := 4294967291
def MODULUS_7P : ℕ := 125
def MODULUS_15P : ℕ := 32749
def MODULUS_31P : ℕ := 2147483629

/-! ### Fast modular reduction (`src/lib.rs`, lines 46-73)

`fast_mod_65519_pre` / `fast_mod_4294967291_pre` are the values of `r2` resp.
`r` just before the final conditional subtraction; the functions themselves
apply the subtraction, exactly as the source does. -/

def fast_mod_65519_pre (x : ℕ) : ℕ :=
  let hi := x >>> 16
  let lo := x &&& 0xFFFF
  let r := hi * 17 + lo
  let hi2 := r >>> 16
  let lo2 := r &&& 0xFFFF
  hi2 * 17 + lo2

def fast_mod_65519 (x : ℕ) : ℕ :=
  let r2 := fast_mod_65519_pre x
  if MODULUS_16 ≤ r2 then r2 - MODULUS_16 else r2

def fast_mod_4294967291_pre (x : ℕ) : ℕ :=
  let hi := x >>> 32
  let lo := x &&& 0xFFFFFFFF
  hi * 5 + lo

def fast_mod_4294967291 (x : ℕ) : ℕ :=
  let r := fast_mod_4294967291_pre x
  if MODULUS_32 ≤ r then r - MODULUS_32 else r

/-- `identity_mod_8` (`src/lib.rs`, line 701): Koopman8's stand-in "fast" path. -/
def identity_mod_8 (x : ℕ) : ℕ := x % MODULUS_8

/-! ### Loop bodies shared by the one-shot functions and the streaming hashers.

`genStep W m` is the body of `sum = ((sum << 8) + byte) % modulus` on a `W`-bit
unsigned accumulator; `genShift W m` is one `sum = (sum << 8) % modulus`
finalization step; the `fast` variants call a fast reduction function instead
of `% modulus`. -/

def genStep (W m sum byte : ℕ) : ℕ := ((sum <<< 8) % W + byte) % W % m

def genShift (W m sum : ℕ) : ℕ := (sum <<< 8) % W % m

def fastStep (W : ℕ) (fm : ℕ → ℕ) (sum byte : ℕ) : ℕ := fm (((sum <<< 8) % W + byte) % W)

def fastShift (W : ℕ) (fm : ℕ → ℕ) (sum : ℕ) : ℕ := fm ((sum <<< 8) % W)

/-! ### One-shot checksum functions (`src/lib.rs`, lines 96-316) -/

/-- `koopman8_with_modulus` (`src/lib.rs`, lines 125-142); `sum` is a `u32`. -/
def koopman8_with_modulus (data : List ℕ) (initial_seed modulus : ℕ) : ℕ :=
  match data with
  | [] => 0
  | b0 :: rest =>
    let sum := rest.foldl (genStep (2^32) modulus) (b0 ^^^ initial_seed)
    let sum := genShift (2^32) modulus sum
    sum % 2^8

/-- `koopman8` (`src/lib.rs`, lines 98-100). -/
def koopman8 (data : List ℕ) (initial_seed : ℕ) : ℕ :=
  koopman8_with_modulus data initial_seed MODULUS_8

/-- The loop body of `koopman16` (`src/lib.rs`, lines 174-181): a `u64` sum with
delayed reduction every 2 bytes; the state is `(sum, count)`. -/
def k16step (st : ℕ × ℕ) (byte : ℕ) : ℕ × ℕ :=
  let sum := ((st.1 <<< 8) % 2^64 + byte) % 2^64
  let count := st.2 + 1
  if count = 2 then (fast_mod_65519 (sum % 2^32), 0) else (sum, count)

/-- `koopman16` (`src/lib.rs`, lines 164-193). -/
def koopman16 (data : List ℕ) (initial_seed : ℕ) : ℕ :=
  match data with
  | [] => 0
  | b0 :: rest =>
    let st := rest.foldl k16step (b0 ^^^ initial_seed, 0)
    let sum := if 0 < st.2 then fast_mod_65519 (st.1 % 2^32) else st.1
    let sum := fast_mod_65519 ((sum <<< 8) % 2^64 % 2^32)
    let sum := fast_mod_65519 ((sum <<< 8) % 2^64 % 2^32)
    sum % 2^16

/-- `koopman16_with_modulus` (`src/lib.rs`, lines 215-233); `sum` is a `u32`. -/
def koopman16_with_modulus (data : List ℕ) (initial_seed modulus : ℕ) : ℕ :=
  match data with
  | [] => 0
  | b0 :: rest =>
    let sum := rest.foldl (genStep (2^32) modulus) (b0 ^^^ initial_seed)
    let sum := genShift (2^32) modulus sum
    let sum := genShift (2^32) modulus sum
    sum % 2^16

/-- `koopman32` (`src/lib.rs`, lines 255-274); `sum` is a `u64`. -/
def koopman32 (data : List ℕ) (initial_seed : ℕ) : ℕ :=
  match data with
  | [] => 0
  | b0 :: rest =>
    let sum := rest.foldl (fastStep (2^64) fast_mod_4294967291) (b0 ^^^ initial_seed)
    let sum := fastShift (2^64) fast_mod_4294967291 sum
    let sum := fastShift (2^64) fast_mod_4294967291 sum
    let sum := fastShift (2^64) fast_mod_4294967291 sum
    let sum := fastShift (2^64) fast_mod_4294967291 sum
    sum % 2^32

/-- `koopman32_with_modulus` (`src/lib.rs`, lines 296-316); `sum` is a `u64`. -/
def koopman32_with_modulus (data : List ℕ) (initial_seed modulus : ℕ) : ℕ :=
  match data with
  | [] => 0
  | b0 :: rest =>
    let sum := rest.foldl (genStep (2^64) modulus) (b0 ^^^ initial_seed)
    let sum := genShift (2^64) modulus sum
    let sum := genShift (2^64) modulus sum
    let sum := genShift (2^64) modulus sum
    let sum := genShift (2^64) modulus sum
    sum % 2^32

/-! ### Parity variants (`src/lib.rs`, lines 322-537) -/

/-- Population count via structural recursion on a fuel argument (the fuel `n`
always suffices for the number `n` itself). -/
def popCountAux : ℕ → ℕ → ℕ
  | 0, _ => 0
  | fuel + 1, n => if n = 0 then 0 else n % 2 + popCountAux fuel (n / 2)

def popCount (n : ℕ) : ℕ := popCountAux n n

/-- `parity8` (`src/lib.rs`, lines 324-326): `(x.count_ones() & 1) as u8`. -/
def parity8 (x : ℕ) : ℕ := popCount x &&& 1

/-- The parity loop body: the checksum step and `psum ^= byte` on the pair
`(sum, psum)`. -/
def parityStep (W m : ℕ) (st : ℕ × ℕ) (byte : ℕ) : ℕ × ℕ :=
  (genStep W m st.1 byte, st.2 ^^^ byte)

/-- `koopman8p_with_modulus` (`src/lib.rs`, lines 374-395). -/
def koopman8p_with_modulus (data : List ℕ) (initial_seed modulus : ℕ) : ℕ :=
  match data with
  | [] => 0
  | b0 :: rest =>
    let sum := b0 ^^^ initial_seed
    let psum := sum % 2^8
    let st := rest.foldl (parityStep (2^32) modulus) (sum, psum)
    let sum := genShift (2^32) modulus st.1
    ((sum % 2^8) <<< 1) % 2^8 ||| parity8 st.2

/-- `koopman8p` (`src/lib.rs`, lines 350-352). -/
def koopman8p (data : List ℕ) (initial_seed : ℕ) : ℕ :=
  koopman8p_with_modulus data initial_seed MODULUS_7P

/-- `koopman16p_with_modulus` (`src/lib.rs`, lines 443-465). -/
def koopman16p_with_modulus (data : List ℕ) (initial_seed modulus : ℕ) : ℕ :=
  match data with
  | [] => 0
  | b0 :: rest =>
    let sum := b0 ^^^ initial_seed
    let psum := sum % 2^8
    let st := rest.foldl (parityStep (2^32) modulus) (sum, psum)
    let sum := genShift (2^32) modulus st.1
    let sum := genShift (2^32) modulus sum
    ((sum % 2^16) <<< 1) % 2^16 ||| parity8 st.2

/-- `koopman16p` (`src/lib.rs`, lines 419-421). -/
def koopman16p (data : List ℕ) (initial_seed : ℕ) : ℕ :=
  koopman16p_with_modulus data initial_seed MODULUS_15P

/-- `koopman32p_with_modulus` (`src/lib.rs`, lines 513-537); `sum` is a `u64`. -/
def koopman32p_with_modulus (data : List ℕ) (initial_seed modulus : ℕ) : ℕ :=
  match data with
  | [] => 0
  | b0 :: rest =>
    let sum := b0 ^^^ initial_seed
    let psum := sum % 2^8
    let st := rest.foldl (parityStep (2^64) modulus) (sum, psum)
    let sum := genShift (2^64) modulus st.1
    let sum := genShift (2^64) modulus sum
    let sum := genShift (2^64) modulus sum
    let sum := genShift (2^64) modulus sum
    ((sum % 2^32) <<< 1) % 2^32 ||| parity8 st.2

/-- `koopman32p` (`src/lib.rs`, lines 489-491). -/
def koopman32p (data : List ℕ) (initial_seed : ℕ) : ℕ :=
  koopman32p_with_modulus data initial_seed MODULUS_31P

/-! ### Streaming hashers (`src/lib.rs`, lines 545-962)

The macro `impl_streaming_hasher!` instantiates the same code for
`Koopman8`/`Koopman16`/`Koopman32`; we model the common state as
`KoopmanState` and the macro-generated methods as functions parameterized by
the accumulator width `W`, the default modulus, the fast reduction function and
the number of finalize shifts, then instantiate them per type exactly as the
macro invocations do. -/

structure KoopmanState where
  sum : ℕ
  modulus : ℕ
  seed : ℕ
  initialized : Bool
  use_fast_mod : Bool
deriving Repr, DecidableEq

/-- `new()` (`src/lib.rs`, lines 564-572). -/
def hasherNew (dm : ℕ) : KoopmanState := ⟨0, dm, 0, false, true⟩

/-- `with_modulus(modulus)` (`src/lib.rs`, lines 588-597). -/
def hasherWithModulus (dm m : ℕ) : KoopmanState := ⟨0, m, 0, false, m == dm⟩

/-- `with_seed(seed)` (`src/lib.rs`, lines 608-616). -/
def hasherWithSeed (dm s : ℕ) : KoopmanState := ⟨s, dm, s, false, true⟩

/-- `update(&mut self, data)` (`src/lib.rs`, lines 620-643). -/
def hasherUpdate (W : ℕ) (fm : ℕ → ℕ) (h : KoopmanState) (data : List ℕ) : KoopmanState :=
  match data with
  | [] => h
  | first :: rest =>
    let sum0 := if h.initialized then h.sum else h.sum ^^^ first
    let bytes := if h.initialized then first :: rest else rest
    let sum :=
      if h.use_fast_mod then bytes.foldl (fastStep W fm) sum0
      else bytes.foldl (genStep W h.modulus) sum0
    ⟨sum, h.modulus, h.seed, true, h.use_fast_mod⟩

/-- `finalize(self)` (`src/lib.rs`, lines 650-665). -/
def hasherFinalize (W : ℕ) (fm : ℕ → ℕ) (shifts outW : ℕ) (h : KoopmanState) : ℕ :=
  if h.initialized then
    let sum :=
      if h.use_fast_mod then Nat.repeat (fastShift W fm) shifts h.sum
      else Nat.repeat (genShift W h.modulus) shifts h.sum
    sum % 2^outW
  else 0

/-- `reset(&mut self)` (`src/lib.rs`, lines 669-672). -/
def hasherReset (h : KoopmanState) : KoopmanState :=
  ⟨h.seed, h.modulus, h.seed, false, h.use_fast_mod⟩

namespace Koopman8

def new : KoopmanState := hasherNew MODULUS_8
def with_modulus (m : ℕ) : KoopmanState := hasherWithModulus MODULUS_8 m
def with_seed (s : ℕ) : KoopmanState := hasherWithSeed MODULUS_8 s
def update (h : KoopmanState) (data : List ℕ) : KoopmanState :=
  hasherUpdate (2^32) identity_mod_8 h data
def finalize (h : KoopmanState) : ℕ := hasherFinalize (2^32) identity_mod_8 1 8 h
def reset (h : KoopmanState) : KoopmanState := hasherReset h

end Koopman8

namespace Koopman16

def new : KoopmanState := hasherNew MODULUS_16
def with_modulus (m : ℕ) : KoopmanState := hasherWithModulus MODULUS_16 m
def with_seed (s : ℕ) : KoopmanState := hasherWithSeed MODULUS_16 s
def update (h : KoopmanState) (data : List ℕ) : KoopmanState :=
  hasherUpdate (2^32) fast_mod_65519 h data
def finalize (h : KoopmanState) : ℕ := hasherFinalize (2^32) fast_mod_65519 2 16 h
def reset (h : KoopmanState) : KoopmanState := hasherReset h

end Koopman16

namespace Koopman32

def new : KoopmanState := hasherNew MODULUS_32
def with_modulus (m : ℕ) : KoopmanState := hasherWithModulus MODULUS_32 m
def with_seed (s : ℕ) : KoopmanState := hasherWithSeed MODULUS_32 s
def update (h : KoopmanState) (data : List ℕ) : KoopmanState :=
  hasherUpdate (2^64) fast_mod_4294967291 h data
def finalize (h : KoopmanState) : ℕ := hasherFinalize (2^64) fast_mod_4294967291 4 32 h
def reset (h : KoopmanState) : KoopmanState := hasherReset h

end Koopman32

/-! Parity streaming hashers (`impl_streaming_parity_hasher!`,
`src/lib.rs`, lines 772-962). -/

structure KoopmanPState where
  sum : ℕ
  psum : ℕ
  modulus : ℕ
  seed : ℕ
  initialized : Bool
deriving Repr, DecidableEq

/-- Parity `new()` (`src/lib.rs`, lines 790-798). -/
def parityHasherNew (dm : ℕ) : KoopmanPState := ⟨0, 0, dm, 0, false⟩

/-- Parity `with_modulus(modulus)` (`src/lib.rs`, lines 805-813). -/
def parityHasherWithModulus (m : ℕ) : KoopmanPState := ⟨0, 0, m, 0, false⟩

/-- Parity `with_seed(seed)` (`src/lib.rs`, lines 817-825). -/
def parityHasherWithSeed (dm s : ℕ) : KoopmanPState := ⟨s, s, dm, s, false⟩

/-- Parity `update(&mut self, data)` (`src/lib.rs`, lines 829-848). -/
def parityHasherUpdate (W : ℕ) (h : KoopmanPState) (data : List ℕ) : KoopmanPState :=
  match data with
  | [] => h
  | first :: rest =>
    let sum0 := if h.initialized then h.sum else h.sum ^^^ first
    let psum0 := if h.initialized then h.psum else h.psum ^^^ first
    let bytes := if h.initialized then first :: rest else rest
    let st := bytes.foldl (parityStep W h.modulus) (sum0, psum0)
    ⟨st.1, st.2, h.modulus, h.seed, true⟩

/-- Parity `finalize(self)` (`src/lib.rs`, lines 855-865). -/
def parityHasherFinalize (W shifts outW : ℕ) (h : KoopmanPState) : ℕ :=
  if h.initialized then
    let sum := Nat.repeat (genShift W h.modulus) shifts h.sum
    ((sum % 2^outW) <<< 1) % 2^outW ||| parity8 h.psum
  else 0

/-- Parity `reset(&mut self)` (`src/lib.rs`, lines 869-873); `psum` becomes
`self.seed as u8`. -/
def parityHasherReset (h : KoopmanPState) : KoopmanPState :=
  ⟨h.seed, h.seed % 2^8, h.modulus, h.seed, false⟩

namespace Koopman8P

def new : KoopmanPState := parityHasherNew MODULUS_7P
def with_modulus (m : ℕ) : KoopmanPState := parityHasherWithModulus m
def with_seed (s : ℕ) : KoopmanPState := parityHasherWithSeed MODULUS_7P s
def update (h : KoopmanPState) (data : List ℕ) : KoopmanPState :=
  parityHasherUpdate (2^32) h data
def finalize (h : KoopmanPState) : ℕ := parityHasherFinalize (2^32) 1 8 h
def reset (h : KoopmanPState) : KoopmanPState := parityHasherReset h

end Koopman8P

namespace Koopman16P

def new : KoopmanPState := parityHasherNew MODULUS_15P
def with_modulus (m : ℕ) : KoopmanPState := parityHasherWithModulus m
def with_seed (s : ℕ) : KoopmanPState := parityHasherWithSeed MODULUS_15P s
def update (h : KoopmanPState) (data : List ℕ) : KoopmanPState :=
  parityHasherUpdate (2^32) h data
def finalize (h : KoopmanPState) : ℕ := parityHasherFinalize (2^32) 2 16 h
def reset (h : KoopmanPState) : KoopmanPState := parityHasherReset h

end Koopman16P

namespace Koopman32P

def new : KoopmanPState := parityHasherNew MODULUS_31P
def with_modulus (m : ℕ) : KoopmanPState := parityHasherWithModulus m
def with_seed (s : ℕ) : KoopmanPState := parityHasherWithSeed MODULUS_31P s
def update (h : KoopmanPState) (data : List ℕ) : KoopmanPState :=
  parityHasherUpdate (2^64) h data
def finalize (h : KoopmanPState) : ℕ := parityHasherFinalize (2^64) 4 32 h
def reset (h : KoopmanPState) : KoopmanPState := parityHasherReset h

end Koopman32P

/-! ### Definitions following the specification's words (for comparison) -/

/-- One ideal-arithmetic Horner step `sum = ((sum << 8) + b) mod modulus`
(spec §4.1 step 3). -/
def pureStep (m sum byte : ℕ) : ℕ := ((sum <<< 8) + byte) % m

/-- One ideal-arithmetic finalization step `sum = (sum << 8) mod modulus`
(spec §4.1 step 4). -/
def pureShift (m sum : ℕ) : ℕ := (sum <<< 8) % m

/-- The checksum core as the spec states it (§4.1): start from
`data[0] XOR seed`, run the Horner recurrence over the remaining bytes, apply
`shifts` implicit-zero finalization steps.  No output truncation. -/
def specHornerCore (data : List ℕ) (seed m shifts : ℕ) : ℕ :=
  match data with
  | [] => 0
  | b0 :: rest =>
    Nat.repeat (pureShift m) shifts (rest.foldl (pureStep m) (b0 ^^^ seed))

/-- The spec's one-shot checksum (§4.1 steps 1-5): `specHornerCore` truncated
to the `outW`-bit output type; empty input gives 0. -/
def specHorner (data : List ℕ) (seed m shifts outW : ℕ) : ℕ :=
  specHornerCore data seed m shifts % 2^outW

/-- The parity accumulator as the spec states it (§4.3): the XOR-fold of the
byte stream seeded with `data[0] XOR seed`. -/
def specPsum (data : List ℕ) (seed : ℕ) : ℕ :=
  match data with
  | [] => 0
  | b0 :: rest => rest.foldl (fun a b => a ^^^ b) (b0 ^^^ seed)

/-- Flip bit `k` of the byte at index `i` of a message. -/
def flipDataBit (data : List ℕ) (i k : ℕ) : List ℕ :=
  data.set i (data.getD i 0 ^^^ 2^k)

/-- An abstract interaction with a streaming hasher: a sequence of `update`
and `reset` calls. -/
inductive HasherOp where
  | upd : List ℕ → HasherOp
  | rst : HasherOp

def runHasher (W : ℕ) (fm : ℕ → ℕ) (h : KoopmanState) (ops : List HasherOp) : KoopmanState :=
  ops.foldl
    (fun h op => match op with
      | .upd d => hasherUpdate W fm h d
      | .rst => hasherReset h) h

def runParityHasher (W : ℕ) (h : KoopmanPState) (ops : List HasherOp) : KoopmanPState :=
  ops.foldl
    (fun h op => match op with
      | .upd d => parityHasherUpdate W h d
      | .rst => parityHasherReset h) h

/-! ### Basic characterizations of the machine operations -/

lemma MODULUS_8_eq : MODULUS_8 = 253 := rfl
lemma MODULUS_16_eq : MODULUS_16 = 65519 := rfl
lemma MODULUS_32_eq : MODULUS_32 = 4294967291 := rfl
lemma MODULUS_7P_eq : MODULUS_7P = 125 := rfl
lemma MODULUS_15P_eq : MODULUS_15P = 32749 := rfl
lemma MODULUS_31P_eq : MODULUS_31P = 2147483629 := rfl

lemma shiftLeft_eight (a : ℕ) : a <<< 8 = a * 256 := by
  rw [Nat.shiftLeft_eq]

lemma shiftLeft_one (a : ℕ) : a <<< 1 = a * 2 := by
  rw [Nat.shiftLeft_eq]

lemma shiftRight_sixteen (a : ℕ) : a >>> 16 = a / 65536 := by
  rw [Nat.shiftRight_eq_div_pow]

lemma shiftRight_thirtytwo (a : ℕ) : a >>> 32 = a / 4294967296 := by
  rw [Nat.shiftRight_eq_div_pow]

lemma and_ffff (a : ℕ) : a &&& 0xFFFF = a % 65536 := by
  have h := Nat.and_pow_two_sub_one_eq_mod a 16
  norm_num at h
  exact h

lemma and_ffffffff (a : ℕ) : a &&& 0xFFFFFFFF = a % 4294967296 := by
  have h := Nat.and_pow_two_sub_one_eq_mod a 32
  norm_num at h
  exact h

lemma genStep_eq (W m sum byte : ℕ) :
    genStep W m sum byte = (sum * 256 % W + byte) % W % m := by
  rw [genStep, shiftLeft_eight]

lemma genShift_eq (W m sum : ℕ) : genShift W m sum = sum * 256 % W % m := by
  rw [genShift, shiftLeft_eight]

lemma fastStep_eq (W : ℕ) (fm : ℕ → ℕ) (sum byte : ℕ) :
    fastStep W fm sum byte = fm ((sum * 256 % W + byte) % W) := by
  rw [fastStep, shiftLeft_eight]

lemma fastShift_eq (W : ℕ) (fm : ℕ → ℕ) (sum : ℕ) :
    fastShift W fm sum = fm (sum * 256 % W) := by
  rw [fastShift, shiftLeft_eight]

lemma pureStep_eq (m sum byte : ℕ) : pureStep m sum byte = (sum * 256 + byte) % m := by
  rw [pureStep, shiftLeft_eight]

lemma pureShift_eq (m sum : ℕ) : pureShift m sum = sum * 256 % m := by
  rw [pureShift, shiftLeft_eight]

lemma xor_lt_256 {a b : ℕ} (ha : a < 256) (hb : b < 256) : a ^^^ b < 256 := by
  have h : a ^^^ b < 2^8 := Nat.xor_lt_two_pow (by omega) (by omega)
  omega

/-! ### Correctness of the fast reductions -/

lemma fast_mod_65519_pre_eq (x : ℕ) :
    fast_mod_65519_pre x =
      (x / 65536 * 17 + x % 65536) / 65536 * 17 + (x / 65536 * 17 + x % 65536) % 65536 := by
  rw [fast_mod_65519_pre]
  simp only [shiftRight_sixteen, and_ffff]

lemma fast_mod_65519_pre_lt (x : ℕ) (h : x < 2^32) : fast_mod_65519_pre x < 2 * 65519 := by
  rw [fast_mod_65519_pre_eq]
  omega

lemma fast_mod_65519_eq (x : ℕ) (h : x < 2^32) : fast_mod_65519 x = x % 65519 := by
  rw [fast_mod_65519, fast_mod_65519_pre_eq, MODULUS_16_eq]
  split <;> omega

lemma fast_mod_65519_lt (x : ℕ) (h : x < 2^32) : fast_mod_65519 x < 65519 := by
  rw [fast_mod_65519_eq x h]
  exact Nat.mod_lt _ (by norm_num)

lemma fast_mod_4294967291_pre_eq (x : ℕ) :
    fast_mod_4294967291_pre x = x / 4294967296 * 5 + x % 4294967296 := by
  rw [fast_mod_4294967291_pre]
  simp only [shiftRight_thirtytwo, and_ffffffff]

lemma fast_mod_4294967291_pre_lt (x : ℕ) (h : x < 2^40) :
    fast_mod_4294967291_pre x < 2 * 4294967291 := by
  rw [fast_mod_4294967291_pre_eq]
  omega

lemma fast_mod_4294967291_eq (x : ℕ) (h : x < 2^40) :
    fast_mod_4294967291 x = x % 4294967291 := by
  rw [fast_mod_4294967291, fast_mod_4294967291_pre_eq, MODULUS_32_eq]
  split <;> omega

lemma fast_mod_4294967291_lt (x : ℕ) (h : x < 2^40) : fast_mod_4294967291 x < 4294967291 := by
  rw [fast_mod_4294967291_eq x h]
  exact Nat.mod_lt _ (by norm_num)

/-! ### The generic wrapped loop agrees with ideal Horner arithmetic

`B` is any common bound for `256` and the modulus with `B * 256 ≤ W`: then the
accumulator never wraps and the generic machine loop computes the ideal
recurrence. -/

lemma genStep_eq_pureStep {W m B sum byte : ℕ} (hmB : m ≤ B) (h256 : 256 ≤ B)
    (hW : B * 256 ≤ W) (hs : sum < B) (hb : byte < 256) :
    genStep W m sum byte = pureStep m sum byte := by
  rw [genStep_eq, pureStep_eq]
  have h1 : sum * 256 + 256 ≤ B * 256 := by omega
  have e1 : sum * 256 % W = sum * 256 := Nat.mod_eq_of_lt (by omega)
  rw [e1]
  have e2 : (sum * 256 + byte) % W = sum * 256 + byte := Nat.mod_eq_of_lt (by omega)
  rw [e2]

lemma pureStep_lt {m B sum byte : ℕ} (hm : 0 < m) (hmB : m ≤ B) :
    pureStep m sum byte < B := by
  rw [pureStep_eq]
  have := Nat.mod_lt (sum * 256 + byte) hm
  omega

lemma foldl_genStep_eq_pure {W m B : ℕ} (hm : 0 < m) (hmB : m ≤ B) (h256 : 256 ≤ B)
    (hW : B * 256 ≤ W) :
    ∀ (l : List ℕ), (∀ b ∈ l, b < 256) → ∀ sum, sum < B →
      l.foldl (genStep W m) sum = l.foldl (pureStep m) sum ∧
        l.foldl (pureStep m) sum < B := by
  intro l
  induction l with
  | nil => exact fun _ sum hs => ⟨rfl, hs⟩
  | cons b t ih =>
    intro hb sum hs
    have hb0 : b < 256 := hb b (by simp)
    have hbt : ∀ x ∈ t, x < 256 := fun x hx => hb x (by simp [hx])
    have hstep : genStep W m sum b = pureStep m sum b :=
      genStep_eq_pureStep hmB h256 hW hs hb0
    have hlt : pureStep m sum b < B := pureStep_lt hm hmB
    have := ih hbt (pureStep m sum b) hlt
    simp only [List.foldl_cons, hstep]
    exact this

lemma genShift_eq_pureShift {W m B sum : ℕ} (h256 : 256 ≤ B) (hW : B * 256 ≤ W)
    (hs : sum < B) :
    genShift W m sum = pureShift m sum := by
  rw [genShift_eq, pureShift_eq]
  have h1 : sum * 256 + 256 ≤ B * 256 := by omega
  have e1 : sum * 256 % W = sum * 256 := Nat.mod_eq_of_lt (by omega)
  rw [e1]

lemma pureShift_lt {m B sum : ℕ} (hm : 0 < m) (hmB : m ≤ B) : pureShift m sum < B := by
  rw [pureShift_eq]
  have := Nat.mod_lt (sum * 256) hm
  omega

lemma repeat_genShift_eq_pure {W m B : ℕ} (hm : 0 < m) (hmB : m ≤ B) (h256 : 256 ≤ B)
    (hW : B * 256 ≤ W) :
    ∀ (shifts : ℕ) (sum : ℕ), sum < B →
      Nat.repeat (genShift W m) shifts sum = Nat.repeat (pureShift m) shifts sum ∧
        Nat.repeat (pureShift m) shifts sum < B := by
  intro shifts
  induction shifts with
  | zero => exact fun sum hs => ⟨rfl, hs⟩
  | succ n ih =>
    intro sum hs
    obtain ⟨heq, hlt⟩ := ih sum hs
    constructor
    · show genShift W m (Nat.repeat (genShift W m) n sum)
        = pureShift m (Nat.repeat (pureShift m) n sum)
      rw [heq]
      exact genShift_eq_pureShift h256 hW hlt
    · exact pureShift_lt hm hmB

/-! ### The fast-reduction loops agree with ideal Horner arithmetic -/

lemma horner_mod (m a b : ℕ) : (a % m * 256 + b) % m = (a * 256 + b) % m :=
  ((Nat.mod_modEq a m).mul_right 256).add_right b

lemma fastStep16_eq_pureStep {sum byte : ℕ} (hs : sum < 65536) (hb : byte < 256) :
    fastStep (2^32) fast_mod_65519 sum byte = pureStep 65519 sum byte := by
  rw [fastStep_eq, pureStep_eq]
  have e1 : (sum * 256 % 2^32 + byte) % 2^32 = sum * 256 + byte := by omega
  rw [e1]
  exact fast_mod_65519_eq _ (by omega)

lemma foldl_fastStep16_eq_pure :
    ∀ (l : List ℕ), (∀ b ∈ l, b < 256) → ∀ sum, sum < 65536 →
      l.foldl (fastStep (2^32) fast_mod_65519) sum = l.foldl (pureStep 65519) sum ∧
        l.foldl (pureStep 65519) sum < 65536 := by
  intro l
  induction l with
  | nil => exact fun _ sum hs => ⟨rfl, hs⟩
  | cons b t ih =>
    intro hb sum hs
    have hb0 : b < 256 := hb b (by simp)
    have hbt : ∀ x ∈ t, x < 256 := fun x hx => hb x (by simp [hx])
    have hlt : pureStep 65519 sum b < 65536 := pureStep_lt (by norm_num) (by norm_num)
    have := ih hbt (pureStep 65519 sum b) hlt
    simp only [List.foldl_cons, fastStep16_eq_pureStep hs hb0]
    exact this

lemma fastStep32_eq_pureStep {sum byte : ℕ} (hs : sum < 2^32) (hb : byte < 256) :
    fastStep (2^64) fast_mod_4294967291 sum byte = pureStep 4294967291 sum byte := by
  rw [fastStep_eq, pureStep_eq]
  have e1 : (sum * 256 % 2^64 + byte) % 2^64 = sum * 256 + byte := by omega
  rw [e1]
  exact fast_mod_4294967291_eq _ (by omega)

lemma foldl_fastStep32_eq_pure :
    ∀ (l : List ℕ), (∀ b ∈ l, b < 256) → ∀ sum, sum < 2^32 →
      l.foldl (fastStep (2^64) fast_mod_4294967291) sum = l.foldl (pureStep 4294967291) sum ∧
        l.foldl (pureStep 4294967291) sum < 2^32 := by
  intro l
  induction l with
  | nil => exact fun _ sum hs => ⟨rfl, hs⟩
  | cons b t ih =>
    intro hb sum hs
    have hb0 : b < 256 := hb b (by simp)
    have hbt : ∀ x ∈ t, x < 256 := fun x hx => hb x (by simp [hx])
    have hlt : pureStep 4294967291 sum b < 2^32 := pureStep_lt (by norm_num) (by norm_num)
    have := ih hbt (pureStep 4294967291 sum b) hlt
    simp only [List.foldl_cons, fastStep32_eq_pureStep hs hb0]
    exact this

lemma fastShift16_eq_pureShift {sum : ℕ} (hs : sum < 65536) :
    fastShift (2^32) fast_mod_65519 sum = pureShift 65519 sum := by
  rw [fastShift_eq, pureShift_eq]
  have e1 : sum * 256 % 2^32 = sum * 256 := by omega
  rw [e1]
  exact fast_mod_65519_eq _ (by omega)

lemma repeat_fastShift16_eq_pure :
    ∀ (shifts : ℕ) (sum : ℕ), sum < 65536 →
      Nat.repeat (fastShift (2^32) fast_mod_65519) shifts sum
        = Nat.repeat (pureShift 65519) shifts sum ∧
        Nat.repeat (pureShift 65519) shifts sum < 65536 := by
  intro shifts
  induction shifts with
  | zero => exact fun sum hs => ⟨rfl, hs⟩
  | succ n ih =>
    intro sum hs
    obtain ⟨heq, hlt⟩ := ih sum hs
    refine ⟨?_, pureShift_lt (by norm_num) (by norm_num)⟩
    show fastShift (2^32) fast_mod_65519 (Nat.repeat (fastShift (2^32) fast_mod_65519) n sum)
      = pureShift 65519 (Nat.repeat (pureShift 65519) n sum)
    rw [heq]
    exact fastShift16_eq_pureShift hlt

lemma fastShift32_eq_pureShift {sum : ℕ} (hs : sum < 2^32) :
    fastShift (2^64) fast_mod_4294967291 sum = pureShift 4294967291 sum := by
  rw [fastShift_eq, pureShift_eq]
  have e1 : sum * 256 % 2^64 = sum * 256 := by omega
  rw [e1]
  exact fast_mod_4294967291_eq _ (by omega)

lemma repeat_fastShift32_eq_pure :
    ∀ (shifts : ℕ) (sum : ℕ), sum < 2^32 →
      Nat.repeat (fastShift (2^64) fast_mod_4294967291) shifts sum
        = Nat.repeat (pureShift 4294967291) shifts sum ∧
        Nat.repeat (pureShift 4294967291) shifts sum < 2^32 := by
  intro shifts
  induction shifts with
  | zero => exact fun sum hs => ⟨rfl, hs⟩
  | succ n ih =>
    intro sum hs
    obtain ⟨heq, hlt⟩ := ih sum hs
    refine ⟨?_, pureShift_lt (by norm_num) (by norm_num)⟩
    show fastShift (2^64) fast_mod_4294967291 (Nat.repeat (fastShift (2^64) fast_mod_4294967291) n sum)
      = pureShift 4294967291 (Nat.repeat (pureShift 4294967291) n sum)
    rw [heq]
    exact fastShift32_eq_pureShift hlt

/-! ### `koopman16`'s delayed pairwise reduction -/

/-- Relation between the `(sum, count)` state of `koopman16`'s loop and the
ideal reduced accumulator `g`. -/
def k16Inv (st : ℕ × ℕ) (g : ℕ) : Prop :=
  (st.2 = 0 ∧ st.1 = g ∧ g < 65536) ∨ (st.2 = 1 ∧ st.1 < 2^24 ∧ st.1 % 65519 = g)

lemma k16step_inv {st : ℕ × ℕ} {g byte : ℕ} (hb : byte < 256) (h : k16Inv st g) :
    k16Inv (k16step st byte) (pureStep 65519 g byte) := by
  rcases h with ⟨h2, h1, hg⟩ | ⟨h2, h1, hmod⟩
  · have hstep : k16step st byte = (st.1 * 256 + byte, 1) := by
      rw [k16step]
      simp only [h2, shiftLeft_eight, Nat.zero_add]
      rw [if_neg (by norm_num)]
      simp only [Prod.mk.injEq]
      exact ⟨by omega, trivial⟩
    rw [hstep]
    right
    refine ⟨rfl, by omega, ?_⟩
    rw [h1, pureStep_eq]
  · have hstep : k16step st byte = (fast_mod_65519 ((st.1 * 256 + byte) % 2^32), 0) := by
      rw [k16step]
      simp only [h2, shiftLeft_eight]
      rw [if_pos (by norm_num)]
      simp only [Prod.mk.injEq]
      refine ⟨?_, trivial⟩
      have e1 : (st.1 * 256 % 2^64 + byte) % 2^64 = st.1 * 256 + byte := by omega
      rw [e1]
    rw [hstep]
    left
    have e2 : (st.1 * 256 + byte) % 2^32 = st.1 * 256 + byte := by omega
    refine ⟨rfl, ?_, ?_⟩
    · rw [e2, fast_mod_65519_eq _ (by omega), pureStep_eq, ← hmod, horner_mod]
    · rw [pureStep_eq, ← hmod, horner_mod]
      have := Nat.mod_lt (st.1 * 256 + byte) (show 0 < 65519 by norm_num)
      omega

lemma foldl_k16step_inv (l : List ℕ) (hb : ∀ b ∈ l, b < 256) :
    ∀ (st : ℕ × ℕ) (g : ℕ), k16Inv st g →
      k16Inv (l.foldl k16step st) (l.foldl (pureStep 65519) g) := by
  induction l with
  | nil => exact fun st g h => h
  | cons b t ih =>
    intro st g h
    have hb0 : b < 256 := hb b (by simp)
    have hbt : ∀ x ∈ t, x < 256 := fun x hx => hb x (by simp [hx])
    simp only [List.foldl_cons]
    exact ih hbt _ _ (k16step_inv hb0 h)

/-! ### One-shot functions versus the spec's ideal Horner recurrence -/

lemma gen_core_eq_spec (W m B shifts : ℕ) (hm : 0 < m) (hmB : m ≤ B) (h256 : 256 ≤ B)
    (hW : B * 256 ≤ W) (b0 seed : ℕ) (rest : List ℕ) (hb0 : b0 < 256) (hs : seed < 256)
    (hbrest : ∀ x ∈ rest, x < 256) :
    Nat.repeat (genShift W m) shifts (rest.foldl (genStep W m) (b0 ^^^ seed))
      = Nat.repeat (pureShift m) shifts (rest.foldl (pureStep m) (b0 ^^^ seed)) := by
  have hxor : b0 ^^^ seed < 256 := xor_lt_256 hb0 hs
  obtain ⟨hfold, hlt⟩ :=
    foldl_genStep_eq_pure hm hmB h256 hW rest hbrest (b0 ^^^ seed) (by omega)
  rw [hfold]
  exact (repeat_genShift_eq_pure hm hmB h256 hW shifts _ hlt).1

lemma koopman8_with_modulus_eq_spec (data : List ℕ) (seed m : ℕ)
    (hb : ∀ b ∈ data, b < 256) (hs : seed < 256) (hm : 0 < m) (hm8 : m ≤ 2^8) :
    koopman8_with_modulus data seed m = specHorner data seed m 1 8 := by
  cases data with
  | nil => rfl
  | cons b0 rest =>
    have h := gen_core_eq_spec (2^32) m 256 1 hm (by omega) (by norm_num) (by norm_num)
      b0 seed rest (hb b0 (by simp)) hs (fun x hx => hb x (by simp [hx]))
    show Nat.repeat (genShift (2^32) m) 1 (rest.foldl (genStep (2^32) m) (b0 ^^^ seed)) % 2^8
      = specHorner (b0 :: rest) seed m 1 8
    rw [h]
    rfl

lemma koopman16_with_modulus_eq_spec (data : List ℕ) (seed m : ℕ)
    (hb : ∀ b ∈ data, b < 256) (hs : seed < 256) (hm : 0 < m) (hm16 : m ≤ 2^16) :
    koopman16_with_modulus data seed m = specHorner data seed m 2 16 := by
  cases data with
  | nil => rfl
  | cons b0 rest =>
    have h := gen_core_eq_spec (2^32) m 65536 2 hm (by omega) (by norm_num) (by norm_num)
      b0 seed rest (hb b0 (by simp)) hs (fun x hx => hb x (by simp [hx]))
    show Nat.repeat (genShift (2^32) m) 2 (rest.foldl (genStep (2^32) m) (b0 ^^^ seed)) % 2^16
      = specHorner (b0 :: rest) seed m 2 16
    rw [h]
    rfl

lemma koopman32_with_modulus_eq_spec (data : List ℕ) (seed m : ℕ)
    (hb : ∀ b ∈ data, b < 256) (hs : seed < 256) (hm : 0 < m) (hm32 : m ≤ 2^32) :
    koopman32_with_modulus data seed m = specHorner data seed m 4 32 := by
  cases data with
  | nil => rfl
  | cons b0 rest =>
    have h := gen_core_eq_spec (2^64) m (2^32) 4 hm (by omega) (by norm_num) (by norm_num)
      b0 seed rest (hb b0 (by simp)) hs (fun x hx => hb x (by simp [hx]))
    show Nat.repeat (genShift (2^64) m) 4 (rest.foldl (genStep (2^64) m) (b0 ^^^ seed)) % 2^32
      = specHorner (b0 :: rest) seed m 4 32
    rw [h]
    rfl

lemma koopman16_eq_spec (data : List ℕ) (seed : ℕ)
    (hb : ∀ b ∈ data, b < 256) (hs : seed < 256) :
    koopman16 data seed = specHorner data seed 65519 2 16 := by
  cases data with
  | nil => rfl
  | cons b0 rest =>
    have hb0 : b0 < 256 := hb b0 (by simp)
    have hbrest : ∀ x ∈ rest, x < 256 := fun x hx => hb x (by simp [hx])
    have hxor : b0 ^^^ seed < 256 := xor_lt_256 hb0 hs
    have hInv := foldl_k16step_inv rest hbrest (b0 ^^^ seed, 0) (b0 ^^^ seed)
      (Or.inl ⟨rfl, rfl, by omega⟩)
    simp only [koopman16, specHorner, specHornerCore]
    set st := rest.foldl k16step (b0 ^^^ seed, 0) with hst
    set g := rest.foldl (pureStep 65519) (b0 ^^^ seed) with hg
    have hsum : (if 0 < st.2 then fast_mod_65519 (st.1 % 2^32) else st.1) = g ∧ g < 65536 := by
      rcases hInv with ⟨h2, h1, hlt⟩ | ⟨h2, h1, hmod⟩
      · rw [if_neg (by omega)]
        exact ⟨h1, hlt⟩
      · rw [if_pos (by omega)]
        have e : st.1 % 2^32 = st.1 := by omega
        rw [e, fast_mod_65519_eq _ (by omega), hmod]
        exact ⟨rfl, by omega⟩
    obtain ⟨hsum_eq, hglt⟩ := hsum
    rw [hsum_eq]
    have e1 : (g <<< 8) % 2^64 % 2^32 = g * 256 := by
      rw [shiftLeft_eight]
      omega
    rw [e1, fast_mod_65519_eq (g * 256) (by omega)]
    have hg1 : g * 256 % 65519 < 65519 := Nat.mod_lt _ (by norm_num)
    have e2 : ((g * 256 % 65519) <<< 8) % 2^64 % 2^32 = g * 256 % 65519 * 256 := by
      rw [shiftLeft_eight]
      omega
    rw [e2, fast_mod_65519_eq (g * 256 % 65519 * 256) (by omega)]
    show g * 256 % 65519 * 256 % 65519 % 2^16 = pureShift 65519 (pureShift 65519 g) % 2^16
    rw [pureShift_eq, pureShift_eq]

lemma koopman32_eq_spec (data : List ℕ) (seed : ℕ)
    (hb : ∀ b ∈ data, b < 256) (hs : seed < 256) :
    koopman32 data seed = specHorner data seed 4294967291 4 32 := by
  cases data with
  | nil => rfl
  | cons b0 rest =>
    have hb0 : b0 < 256 := hb b0 (by simp)
    have hbrest : ∀ x ∈ rest, x < 256 := fun x hx => hb x (by simp [hx])
    have hxor : b0 ^^^ seed < 256 := xor_lt_256 hb0 hs
    obtain ⟨hfold, hlt⟩ := foldl_fastStep32_eq_pure rest hbrest (b0 ^^^ seed) (by omega)
    show Nat.repeat (fastShift (2^64) fast_mod_4294967291) 4
        (rest.foldl (fastStep (2^64) fast_mod_4294967291) (b0 ^^^ seed)) % 2^32
      = specHorner (b0 :: rest) seed 4294967291 4 32
    rw [hfold, (repeat_fastShift32_eq_pure 4 _ hlt).1]
    rfl

/-! ### Parity pair-fold decomposition -/

lemma foldl_parityStep_split (W m : ℕ) (l : List ℕ) :
    ∀ (s p : ℕ), l.foldl (parityStep W m) (s, p)
      = (l.foldl (genStep W m) s, l.foldl (fun a b => a ^^^ b) p) := by
  induction l with
  | nil => exact fun s p => rfl
  | cons b t ih =>
    intro s p
    simp only [List.foldl_cons]
    exact ih (genStep W m s b) (p ^^^ b)

lemma foldl_xor_lt (l : List ℕ) (hb : ∀ b ∈ l, b < 256) :
    ∀ p, p < 256 → l.foldl (fun a b => a ^^^ b) p < 256 := by
  induction l with
  | nil => exact fun p hp => hp
  | cons b t ih =>
    intro p hp
    have hb0 : b < 256 := hb b (by simp)
    have hbt : ∀ x ∈ t, x < 256 := fun x hx => hb x (by simp [hx])
    simp only [List.foldl_cons]
    exact ih hbt (p ^^^ b) (xor_lt_256 hp hb0)

lemma repeat_pureShift_lt (m : ℕ) (hm : 0 < m) (k s : ℕ) (hk : 0 < k) :
    Nat.repeat (pureShift m) k s < m := by
  cases k with
  | zero => omega
  | succ n =>
    show pureShift m (Nat.repeat (pureShift m) n s) < m
    rw [pureShift_eq]
    exact Nat.mod_lt _ hm

lemma koopman8p_with_modulus_eq_spec (data : List ℕ) (seed m : ℕ)
    (hb : ∀ b ∈ data, b < 256) (hs : seed < 256) (hm : 0 < m) (hm7 : m ≤ 2^7) :
    koopman8p_with_modulus data seed m
      = (specHornerCore data seed m 1 <<< 1) ||| (popCount (specPsum data seed) % 2) := by
  cases data with
  | nil => simp [koopman8p_with_modulus, specHornerCore, specPsum, popCount, popCountAux]
  | cons b0 rest =>
    have hb0 : b0 < 256 := hb b0 (by simp)
    have hbrest : ∀ x ∈ rest, x < 256 := fun x hx => hb x (by simp [hx])
    have hxor : b0 ^^^ seed < 256 := xor_lt_256 hb0 hs
    simp only [koopman8p_with_modulus, specHornerCore, specPsum]
    rw [foldl_parityStep_split]
    dsimp only
    have hp0 : (b0 ^^^ seed) % 2^8 = b0 ^^^ seed := Nat.mod_eq_of_lt (by omega)
    rw [hp0]
    have hcore' : genShift (2^32) m (rest.foldl (genStep (2^32) m) (b0 ^^^ seed))
        = Nat.repeat (pureShift m) 1 (rest.foldl (pureStep m) (b0 ^^^ seed)) :=
      gen_core_eq_spec (2^32) m 256 1 hm (by omega) (by norm_num) (by norm_num)
        b0 seed rest hb0 hs hbrest
    rw [hcore']
    set c := Nat.repeat (pureShift m) 1 (rest.foldl (pureStep m) (b0 ^^^ seed)) with hc
    have hclt : c < m := repeat_pureShift_lt m hm 1 _ (by norm_num)
    have e3 : c % 2^8 = c := Nat.mod_eq_of_lt (by omega)
    have e4 : (c <<< 1) % 2^8 = c <<< 1 := by
      rw [shiftLeft_one]
      exact Nat.mod_eq_of_lt (by omega)
    rw [e3, e4, parity8, Nat.and_one_is_mod]

lemma koopman16p_with_modulus_eq_spec (data : List ℕ) (seed m : ℕ)
    (hb : ∀ b ∈ data, b < 256) (hs : seed < 256) (hm : 0 < m) (hm15 : m ≤ 2^15) :
    koopman16p_with_modulus data seed m
      = (specHornerCore data seed m 2 <<< 1) ||| (popCount (specPsum data seed) % 2) := by
  cases data with
  | nil => simp [koopman16p_with_modulus, specHornerCore, specPsum, popCount, popCountAux]
  | cons b0 rest =>
    have hb0 : b0 < 256 := hb b0 (by simp)
    have hbrest : ∀ x ∈ rest, x < 256 := fun x hx => hb x (by simp [hx])
    have hxor : b0 ^^^ seed < 256 := xor_lt_256 hb0 hs
    simp only [koopman16p_with_modulus, specHornerCore, specPsum]
    rw [foldl_parityStep_split]
    dsimp only
    have hp0 : (b0 ^^^ seed) % 2^8 = b0 ^^^ seed := Nat.mod_eq_of_lt (by omega)
    rw [hp0]
    have hcore' : genShift (2^32) m (genShift (2^32) m
          (rest.foldl (genStep (2^32) m) (b0 ^^^ seed)))
        = Nat.repeat (pureShift m) 2 (rest.foldl (pureStep m) (b0 ^^^ seed)) :=
      gen_core_eq_spec (2^32) m 65536 2 hm (by omega) (by norm_num) (by norm_num)
        b0 seed rest hb0 hs hbrest
    rw [hcore']
    set c := Nat.repeat (pureShift m) 2 (rest.foldl (pureStep m) (b0 ^^^ seed)) with hc
    have hclt : c < m := repeat_pureShift_lt m hm 2 _ (by norm_num)
    have e3 : c % 2^16 = c := Nat.mod_eq_of_lt (by omega)
    have e4 : (c <<< 1) % 2^16 = c <<< 1 := by
      rw [shiftLeft_one]
      exact Nat.mod_eq_of_lt (by omega)
    rw [e3, e4, parity8, Nat.and_one_is_mod]

lemma koopman32p_with_modulus_eq_spec (data : List ℕ) (seed m : ℕ)
    (hb : ∀ b ∈ data, b < 256) (hs : seed < 256) (hm : 0 < m) (hm31 : m ≤ 2^31) :
    koopman32p_with_modulus data seed m
      = (specHornerCore data seed m 4 <<< 1) ||| (popCount (specPsum data seed) % 2) := by
  cases data with
  | nil => simp [koopman32p_with_modulus, specHornerCore, specPsum, popCount, popCountAux]
  | cons b0 rest =>
    have hb0 : b0 < 256 := hb b0 (by simp)
    have hbrest : ∀ x ∈ rest, x < 256 := fun x hx => hb x (by simp [hx])
    have hxor : b0 ^^^ seed < 256 := xor_lt_256 hb0 hs
    simp only [koopman32p_with_modulus, specHornerCore, specPsum]
    rw [foldl_parityStep_split]
    dsimp only
    have hp0 : (b0 ^^^ seed) % 2^8 = b0 ^^^ seed := Nat.mod_eq_of_lt (by omega)
    rw [hp0]
    have hcore' : genShift (2^64) m (genShift (2^64) m (genShift (2^64) m (genShift (2^64) m
          (rest.foldl (genStep (2^64) m) (b0 ^^^ seed)))))
        = Nat.repeat (pureShift m) 4 (rest.foldl (pureStep m) (b0 ^^^ seed)) :=
      gen_core_eq_spec (2^64) m (2^32) 4 hm (by omega) (by norm_num) (by norm_num)
        b0 seed rest hb0 hs hbrest
    rw [hcore']
    set c := Nat.repeat (pureShift m) 4 (rest.foldl (pureStep m) (b0 ^^^ seed)) with hc
    have hclt : c < m := repeat_pureShift_lt m hm 4 _ (by norm_num)
    have e3 : c % 2^32 = c := Nat.mod_eq_of_lt (by omega)
    have e4 : (c <<< 1) % 2^32 = c <<< 1 := by
      rw [shiftLeft_one]
      exact Nat.mod_eq_of_lt (by omega)
    rw [e3, e4, parity8, Nat.and_one_is_mod]

/-! ### Streaming hasher structural lemmas -/

lemma hasherUpdate_fields (W : ℕ) (fm : ℕ → ℕ) (h : KoopmanState) (data : List ℕ) :
    (hasherUpdate W fm h data).modulus = h.modulus ∧
      (hasherUpdate W fm h data).seed = h.seed ∧
      (hasherUpdate W fm h data).use_fast_mod = h.use_fast_mod := by
  cases data <;> exact ⟨rfl, rfl, rfl⟩

lemma parityHasherUpdate_fields (W : ℕ) (h : KoopmanPState) (data : List ℕ) :
    (parityHasherUpdate W h data).modulus = h.modulus ∧
      (parityHasherUpdate W h data).seed = h.seed := by
  cases data <;> exact ⟨rfl, rfl⟩

lemma hasherUpdate_append (W : ℕ) (fm : ℕ → ℕ) (h : KoopmanState) (a b : List ℕ) :
    hasherUpdate W fm h (a ++ b) = hasherUpdate W fm (hasherUpdate W fm h a) b := by
  cases a with
  | nil => rfl
  | cons x xs =>
    cases b with
    | nil => rw [List.append_nil]; rfl
    | cons y ys =>
      show hasherUpdate W fm h (x :: (xs ++ y :: ys))
        = hasherUpdate W fm (hasherUpdate W fm h (x :: xs)) (y :: ys)
      by_cases hi : h.initialized <;> by_cases hf : h.use_fast_mod <;>
        simp [hasherUpdate, hi, hf, List.foldl_append]

lemma parityHasherUpdate_append (W : ℕ) (h : KoopmanPState) (a b : List ℕ) :
    parityHasherUpdate W h (a ++ b) = parityHasherUpdate W (parityHasherUpdate W h a) b := by
  cases a with
  | nil => rfl
  | cons x xs =>
    cases b with
    | nil => rw [List.append_nil]; rfl
    | cons y ys =>
      show parityHasherUpdate W h (x :: (xs ++ y :: ys))
        = parityHasherUpdate W (parityHasherUpdate W h (x :: xs)) (y :: ys)
      by_cases hi : h.initialized <;>
        simp [parityHasherUpdate, hi, List.foldl_append]

lemma foldl_hasherUpdate_flatten (W : ℕ) (fm : ℕ → ℕ) :
    ∀ (chunks : List (List ℕ)) (h : KoopmanState),
      chunks.foldl (hasherUpdate W fm) h = hasherUpdate W fm h chunks.flatten := by
  intro chunks
  induction chunks with
  | nil => intro h; rfl
  | cons c cs ih =>
    intro h
    simp only [List.foldl_cons, List.flatten_cons]
    rw [ih, ← hasherUpdate_append]

lemma foldl_parityHasherUpdate_flatten (W : ℕ) :
    ∀ (chunks : List (List ℕ)) (h : KoopmanPState),
      chunks.foldl (parityHasherUpdate W) h = parityHasherUpdate W h chunks.flatten := by
  intro chunks
  induction chunks with
  | nil => intro h; rfl
  | cons c cs ih =>
    intro h
    simp only [List.foldl_cons, List.flatten_cons]
    rw [ih, ← parityHasherUpdate_append]

lemma hasherReset_update (W : ℕ) (fm : ℕ → ℕ) (h : KoopmanState) (data : List ℕ) :
    hasherReset (hasherUpdate W fm h data) = hasherReset h := by
  cases data <;> rfl

lemma parityHasherReset_update (W : ℕ) (h : KoopmanPState) (data : List ℕ) :
    parityHasherReset (parityHasherUpdate W h data) = parityHasherReset h := by
  cases data <;> rfl

/-! ### Streaming hashers versus one-shot computation -/

lemma fastStep_identity : fastStep (2^32) identity_mod_8 = genStep (2^32) MODULUS_8 := by
  funext s b
  rfl

lemma fastShift_identity : fastShift (2^32) identity_mod_8 = genShift (2^32) MODULUS_8 := by
  funext s
  rfl

lemma koopman8_stream_fast (data : List ℕ) (h : KoopmanState)
    (hi : h.initialized = false) (hf : h.use_fast_mod = true) :
    Koopman8.finalize (Koopman8.update h data) = koopman8_with_modulus data h.sum MODULUS_8 := by
  cases data with
  | nil =>
    simp [Koopman8.update, Koopman8.finalize, hasherUpdate, hasherFinalize, hi,
      koopman8_with_modulus]
  | cons b0 rest =>
    simp only [Koopman8.update, Koopman8.finalize, hasherUpdate, hasherFinalize, hi, hf,
      koopman8_with_modulus, Bool.false_eq_true, if_false, if_true, fastStep_identity,
      fastShift_identity]
    rw [Nat.xor_comm h.sum b0]
    rfl

lemma koopman8_stream_gen (m : ℕ) (data : List ℕ) (h : KoopmanState)
    (hi : h.initialized = false) (hf : h.use_fast_mod = false)
    (hsum : h.sum = 0) (hmod : h.modulus = m) :
    Koopman8.finalize (Koopman8.update h data) = koopman8_with_modulus data 0 m := by
  cases data with
  | nil =>
    simp [Koopman8.update, Koopman8.finalize, hasherUpdate, hasherFinalize, hi,
      koopman8_with_modulus]
  | cons b0 rest =>
    simp only [Koopman8.update, Koopman8.finalize, hasherUpdate, hasherFinalize, hi, hf,
      koopman8_with_modulus, Bool.false_eq_true, if_false, hsum, hmod]
    rw [Nat.zero_xor, Nat.xor_zero]
    rfl

lemma koopman16_stream_fast (data : List ℕ) (hb : ∀ b ∈ data, b < 256) (h : KoopmanState)
    (hi : h.initialized = false) (hf : h.use_fast_mod = true) (hs : h.sum < 256) :
    Koopman16.finalize (Koopman16.update h data) = specHorner data h.sum 65519 2 16 := by
  cases data with
  | nil =>
    simp [Koopman16.update, Koopman16.finalize, hasherUpdate, hasherFinalize, hi,
      specHorner, specHornerCore]
  | cons b0 rest =>
    have hb0 : b0 < 256 := hb b0 (by simp)
    have hbrest : ∀ x ∈ rest, x < 256 := fun x hx => hb x (by simp [hx])
    have hxor : h.sum ^^^ b0 < 256 := xor_lt_256 hs hb0
    obtain ⟨hfold, hlt⟩ := foldl_fastStep16_eq_pure rest hbrest (h.sum ^^^ b0) (by omega)
    simp only [Koopman16.update, Koopman16.finalize, hasherUpdate, hasherFinalize, hi, hf,
      Bool.false_eq_true, if_false, if_true, specHorner, specHornerCore]
    rw [hfold, (repeat_fastShift16_eq_pure 2 _ hlt).1, Nat.xor_comm h.sum b0]

lemma koopman16_stream_gen (m : ℕ) (data : List ℕ) (h : KoopmanState)
    (hi : h.initialized = false) (hf : h.use_fast_mod = false)
    (hsum : h.sum = 0) (hmod : h.modulus = m) :
    Koopman16.finalize (Koopman16.update h data) = koopman16_with_modulus data 0 m := by
  cases data with
  | nil =>
    simp [Koopman16.update, Koopman16.finalize, hasherUpdate, hasherFinalize, hi,
      koopman16_with_modulus]
  | cons b0 rest =>
    simp only [Koopman16.update, Koopman16.finalize, hasherUpdate, hasherFinalize, hi, hf,
      koopman16_with_modulus, Bool.false_eq_true, if_false, hsum, hmod]
    rw [Nat.zero_xor, Nat.xor_zero]
    rfl

lemma koopman32_stream_fast (data : List ℕ) (hb : ∀ b ∈ data, b < 256) (h : KoopmanState)
    (hi : h.initialized = false) (hf : h.use_fast_mod = true) (hs : h.sum < 256) :
    Koopman32.finalize (Koopman32.update h data) = specHorner data h.sum 4294967291 4 32 := by
  cases data with
  | nil =>
    simp [Koopman32.update, Koopman32.finalize, hasherUpdate, hasherFinalize, hi,
      specHorner, specHornerCore]
  | cons b0 rest =>
    have hb0 : b0 < 256 := hb b0 (by simp)
    have hbrest : ∀ x ∈ rest, x < 256 := fun x hx => hb x (by simp [hx])
    have hxor : h.sum ^^^ b0 < 256 := xor_lt_256 hs hb0
    obtain ⟨hfold, hlt⟩ := foldl_fastStep32_eq_pure rest hbrest (h.sum ^^^ b0) (by omega)
    simp only [Koopman32.update, Koopman32.finalize, hasherUpdate, hasherFinalize, hi, hf,
      Bool.false_eq_true, if_false, if_true, specHorner, specHornerCore]
    rw [hfold, (repeat_fastShift32_eq_pure 4 _ hlt).1, Nat.xor_comm h.sum b0]

lemma koopman32_stream_gen (m : ℕ) (data : List ℕ) (h : KoopmanState)
    (hi : h.initialized = false) (hf : h.use_fast_mod = false)
    (hsum : h.sum = 0) (hmod : h.modulus = m) :
    Koopman32.finalize (Koopman32.update h data) = koopman32_with_modulus data 0 m := by
  cases data with
  | nil =>
    simp [Koopman32.update, Koopman32.finalize, hasherUpdate, hasherFinalize, hi,
      koopman32_with_modulus]
  | cons b0 rest =>
    simp only [Koopman32.update, Koopman32.finalize, hasherUpdate, hasherFinalize, hi, hf,
      koopman32_with_modulus, Bool.false_eq_true, if_false, hsum, hmod]
    rw [Nat.zero_xor, Nat.xor_zero]
    rfl

lemma koopman8p_stream (m : ℕ) (data : List ℕ) (hb : ∀ b ∈ data, b < 256) (h : KoopmanPState)
    (hi : h.initialized = false) (hps : h.psum = h.sum) (hs : h.sum < 256)
    (hmod : h.modulus = m) :
    Koopman8P.finalize (Koopman8P.update h data) = koopman8p_with_modulus data h.sum m := by
  cases data with
  | nil =>
    simp [Koopman8P.update, Koopman8P.finalize, parityHasherUpdate, parityHasherFinalize, hi,
      koopman8p_with_modulus]
  | cons b0 rest =>
    have hb0 : b0 < 256 := hb b0 (by simp)
    have hxor : b0 ^^^ h.sum < 256 := xor_lt_256 hb0 hs
    simp only [Koopman8P.update, Koopman8P.finalize, parityHasherUpdate, parityHasherFinalize,
      hi, Bool.false_eq_true, if_false, if_true, koopman8p_with_modulus, hps, hmod]
    rw [Nat.xor_comm h.sum b0]
    have e : (b0 ^^^ h.sum) % 2^8 = b0 ^^^ h.sum := Nat.mod_eq_of_lt (by omega)
    rw [e]
    rfl

lemma koopman16p_stream (m : ℕ) (data : List ℕ) (hb : ∀ b ∈ data, b < 256) (h : KoopmanPState)
    (hi : h.initialized = false) (hps : h.psum = h.sum) (hs : h.sum < 256)
    (hmod : h.modulus = m) :
    Koopman16P.finalize (Koopman16P.update h data) = koopman16p_with_modulus data h.sum m := by
  cases data with
  | nil =>
    simp [Koopman16P.update, Koopman16P.finalize, parityHasherUpdate, parityHasherFinalize, hi,
      koopman16p_with_modulus]
  | cons b0 rest =>
    have hb0 : b0 < 256 := hb b0 (by simp)
    have hxor : b0 ^^^ h.sum < 256 := xor_lt_256 hb0 hs
    simp only [Koopman16P.update, Koopman16P.finalize, parityHasherUpdate, parityHasherFinalize,
      hi, Bool.false_eq_true, if_false, if_true, koopman16p_with_modulus, hps, hmod]
    rw [Nat.xor_comm h.sum b0]
    have e : (b0 ^^^ h.sum) % 2^8 = b0 ^^^ h.sum := Nat.mod_eq_of_lt (by omega)
    rw [e]
    rfl

lemma koopman32p_stream (m : ℕ) (data : List ℕ) (hb : ∀ b ∈ data, b < 256) (h : KoopmanPState)
    (hi : h.initialized = false) (hps : h.psum = h.sum) (hs : h.sum < 256)
    (hmod : h.modulus = m) :
    Koopman32P.finalize (Koopman32P.update h data) = koopman32p_with_modulus data h.sum m := by
  cases data with
  | nil =>
    simp [Koopman32P.update, Koopman32P.finalize, parityHasherUpdate, parityHasherFinalize, hi,
      koopman32p_with_modulus]
  | cons b0 rest =>
    have hb0 : b0 < 256 := hb b0 (by simp)
    have hxor : b0 ^^^ h.sum < 256 := xor_lt_256 hb0 hs
    simp only [Koopman32P.update, Koopman32P.finalize, parityHasherUpdate, parityHasherFinalize,
      hi, Bool.false_eq_true, if_false, if_true, koopman32p_with_modulus, hps, hmod]
    rw [Nat.xor_comm h.sum b0]
    have e : (b0 ^^^ h.sum) % 2^8 = b0 ^^^ h.sum := Nat.mod_eq_of_lt (by omega)
    rw [e]
    rfl

lemma foldl_Koopman8_update_flatten (chunks : List (List ℕ)) (h : KoopmanState) :
    chunks.foldl Koopman8.update h = Koopman8.update h chunks.flatten :=
  foldl_hasherUpdate_flatten (2^32) identity_mod_8 chunks h

lemma foldl_Koopman16_update_flatten (chunks : List (List ℕ)) (h : KoopmanState) :
    chunks.foldl Koopman16.update h = Koopman16.update h chunks.flatten :=
  foldl_hasherUpdate_flatten (2^32) fast_mod_65519 chunks h

lemma foldl_Koopman32_update_flatten (chunks : List (List ℕ)) (h : KoopmanState) :
    chunks.foldl Koopman32.update h = Koopman32.update h chunks.flatten :=
  foldl_hasherUpdate_flatten (2^64) fast_mod_4294967291 chunks h

lemma foldl_Koopman8P_update_flatten (chunks : List (List ℕ)) (h : KoopmanPState) :
    chunks.foldl Koopman8P.update h = Koopman8P.update h chunks.flatten :=
  foldl_parityHasherUpdate_flatten (2^32) chunks h

lemma foldl_Koopman16P_update_flatten (chunks : List (List ℕ)) (h : KoopmanPState) :
    chunks.foldl Koopman16P.update h = Koopman16P.update h chunks.flatten :=
  foldl_parityHasherUpdate_flatten (2^32) chunks h

lemma foldl_Koopman32P_update_flatten (chunks : List (List ℕ)) (h : KoopmanPState) :
    chunks.foldl Koopman32P.update h = Koopman32P.update h chunks.flatten :=
  foldl_parityHasherUpdate_flatten (2^64) chunks h

/-! ### Claim C1 -/

/-- All 18 combinations of hasher type (`Koopman8/16/32`, `Koopman8P/16P/32P`)
and constructor (`new`, `with_seed s`, `with_modulus m`): feeding the chunks in
order via `update` and then calling `finalize` gives the corresponding one-shot
checksum of the concatenation. -/
def StreamingMatchesOneShot (chunks : List (List ℕ)) (s m : ℕ) : Prop :=
  (Koopman8.finalize (chunks.foldl Koopman8.update Koopman8.new)
      = koopman8 chunks.flatten 0) ∧
  (Koopman8.finalize (chunks.foldl Koopman8.update (Koopman8.with_seed s))
      = koopman8 chunks.flatten s) ∧
  (Koopman8.finalize (chunks.foldl Koopman8.update (Koopman8.with_modulus m))
      = koopman8_with_modulus chunks.flatten 0 m) ∧
  (Koopman16.finalize (chunks.foldl Koopman16.update Koopman16.new)
      = koopman16 chunks.flatten 0) ∧
  (Koopman16.finalize (chunks.foldl Koopman16.update (Koopman16.with_seed s))
      = koopman16 chunks.flatten s) ∧
  (Koopman16.finalize (chunks.foldl Koopman16.update (Koopman16.with_modulus m))
      = koopman16_with_modulus chunks.flatten 0 m) ∧
  (Koopman32.finalize (chunks.foldl Koopman32.update Koopman32.new)
      = koopman32 chunks.flatten 0) ∧
  (Koopman32.finalize (chunks.foldl Koopman32.update (Koopman32.with_seed s))
      = koopman32 chunks.flatten s) ∧
  (Koopman32.finalize (chunks.foldl Koopman32.update (Koopman32.with_modulus m))
      = koopman32_with_modulus chunks.flatten 0 m) ∧
  (Koopman8P.finalize (chunks.foldl Koopman8P.update Koopman8P.new)
      = koopman8p chunks.flatten 0) ∧
  (Koopman8P.finalize (chunks.foldl Koopman8P.update (Koopman8P.with_seed s))
      = koopman8p chunks.flatten s) ∧
  (Koopman8P.finalize (chunks.foldl Koopman8P.update (Koopman8P.with_modulus m))
      = koopman8p_with_modulus chunks.flatten 0 m) ∧
  (Koopman16P.finalize (chunks.foldl Koopman16P.update Koopman16P.new)
      = koopman16p chunks.flatten 0) ∧
  (Koopman16P.finalize (chunks.foldl Koopman16P.update (Koopman16P.with_seed s))
      = koopman16p chunks.flatten s) ∧
  (Koopman16P.finalize (chunks.foldl Koopman16P.update (Koopman16P.with_modulus m))
      = koopman16p_with_modulus chunks.flatten 0 m) ∧
  (Koopman32P.finalize (chunks.foldl Koopman32P.update Koopman32P.new)
      = koopman32p chunks.flatten 0) ∧
  (Koopman32P.finalize (chunks.foldl Koopman32P.update (Koopman32P.with_seed s))
      = koopman32p chunks.flatten s) ∧
  (Koopman32P.finalize (chunks.foldl Koopman32P.update (Koopman32P.with_modulus m))
      = koopman32p_with_modulus chunks.flatten 0 m)

/-- Claim C1: for every byte sequence, every way of splitting it into an ordered
sequence of chunks (including empty chunks and byte-by-byte splits) and every
constructor of every streaming hasher, feeding the chunks in order via `update`
and then calling `finalize` returns exactly the corresponding one-shot result. -/
theorem C1_streaming_equivalence (chunks : List (List ℕ)) (s m : ℕ)
    (hb : ∀ c ∈ chunks, ∀ b ∈ c, b < 256) (hs : s < 256) (hm : 0 < m) :
    StreamingMatchesOneShot chunks s m := by
  have hbdata : ∀ b ∈ chunks.flatten, b < 256 := by
    intro b hbm
    rw [List.mem_flatten] at hbm
    obtain ⟨c, hc, hbc⟩ := hbm
    exact hb c hc b hbc
  refine ⟨?_, ?_, ?_, ?_, ?_, ?_, ?_, ?_, ?_, ?_, ?_, ?_, ?_, ?_, ?_, ?_, ?_, ?_⟩
  · rw [foldl_Koopman8_update_flatten]
    exact koopman8_stream_fast chunks.flatten Koopman8.new rfl rfl
  · rw [foldl_Koopman8_update_flatten]
    exact koopman8_stream_fast chunks.flatten (Koopman8.with_seed s) rfl rfl
  · rw [foldl_Koopman8_update_flatten]
    by_cases hm8 : m = MODULUS_8
    · subst hm8
      exact koopman8_stream_fast chunks.flatten (Koopman8.with_modulus MODULUS_8) rfl
        (by simp [Koopman8.with_modulus, hasherWithModulus])
    · exact koopman8_stream_gen m chunks.flatten (Koopman8.with_modulus m) rfl
        (by simp [Koopman8.with_modulus, hasherWithModulus, beq_eq_false_iff_ne, hm8]) rfl rfl
  · rw [foldl_Koopman16_update_flatten,
      koopman16_stream_fast chunks.flatten hbdata Koopman16.new rfl rfl (by decide)]
    exact (koopman16_eq_spec chunks.flatten 0 hbdata (by decide)).symm
  · rw [foldl_Koopman16_update_flatten,
      koopman16_stream_fast chunks.flatten hbdata (Koopman16.with_seed s) rfl rfl hs]
    exact (koopman16_eq_spec chunks.flatten s hbdata hs).symm
  · rw [foldl_Koopman16_update_flatten]
    by_cases hm16 : m = MODULUS_16
    · subst hm16
      rw [koopman16_stream_fast chunks.flatten hbdata (Koopman16.with_modulus MODULUS_16) rfl
        (by simp [Koopman16.with_modulus, hasherWithModulus]) (by decide)]
      exact (koopman16_with_modulus_eq_spec chunks.flatten 0 MODULUS_16 hbdata (by decide)
        (by decide) (by decide)).symm
    · exact koopman16_stream_gen m chunks.flatten (Koopman16.with_modulus m) rfl
        (by simp [Koopman16.with_modulus, hasherWithModulus, beq_eq_false_iff_ne, hm16]) rfl rfl
  · rw [foldl_Koopman32_update_flatten,
      koopman32_stream_fast chunks.flatten hbdata Koopman32.new rfl rfl (by decide)]
    exact (koopman32_eq_spec chunks.flatten 0 hbdata (by decide)).symm
  · rw [foldl_Koopman32_update_flatten,
      koopman32_stream_fast chunks.flatten hbdata (Koopman32.with_seed s) rfl rfl hs]
    exact (koopman32_eq_spec chunks.flatten s hbdata hs).symm
  · rw [foldl_Koopman32_update_flatten]
    by_cases hm32 : m = MODULUS_32
    · subst hm32
      rw [koopman32_stream_fast chunks.flatten hbdata (Koopman32.with_modulus MODULUS_32) rfl
        (by simp [Koopman32.with_modulus, hasherWithModulus]) (by decide)]
      exact (koopman32_with_modulus_eq_spec chunks.flatten 0 MODULUS_32 hbdata (by decide)
        (by decide) (by decide)).symm
    · exact koopman32_stream_gen m chunks.flatten (Koopman32.with_modulus m) rfl
        (by simp [Koopman32.with_modulus, hasherWithModulus, beq_eq_false_iff_ne, hm32]) rfl rfl
  · rw [foldl_Koopman8P_update_flatten]
    exact koopman8p_stream MODULUS_7P chunks.flatten hbdata Koopman8P.new rfl rfl (by decide) rfl
  · rw [foldl_Koopman8P_update_flatten]
    exact koopman8p_stream MODULUS_7P chunks.flatten hbdata (Koopman8P.with_seed s) rfl rfl hs rfl
  · rw [foldl_Koopman8P_update_flatten]
    exact koopman8p_stream m chunks.flatten hbdata (Koopman8P.with_modulus m) rfl rfl
      (show (0:ℕ) < 256 by decide) rfl
  · rw [foldl_Koopman16P_update_flatten]
    exact koopman16p_stream MODULUS_15P chunks.flatten hbdata Koopman16P.new rfl rfl
      (by decide) rfl
  · rw [foldl_Koopman16P_update_flatten]
    exact koopman16p_stream MODULUS_15P chunks.flatten hbdata (Koopman16P.with_seed s) rfl rfl
      hs rfl
  · rw [foldl_Koopman16P_update_flatten]
    exact koopman16p_stream m chunks.flatten hbdata (Koopman16P.with_modulus m) rfl rfl
      (show (0:ℕ) < 256 by decide) rfl
  · rw [foldl_Koopman32P_update_flatten]
    exact koopman32p_stream MODULUS_31P chunks.flatten hbdata Koopman32P.new rfl rfl
      (by decide) rfl
  · rw [foldl_Koopman32P_update_flatten]
    exact koopman32p_stream MODULUS_31P chunks.flatten hbdata (Koopman32P.with_seed s) rfl rfl
      hs rfl
  · rw [foldl_Koopman32P_update_flatten]
    exact koopman32p_stream m chunks.flatten hbdata (Koopman32P.with_modulus m) rfl rfl
      (show (0:ℕ) < 256 by decide) rfl

/-- Witness for claim C1 at a concrete chunking (with an empty chunk included),
seed 5 and modulus 7. -/
theorem C1_streaming_equivalence_witness : StreamingMatchesOneShot [[1, 2], [], [3]] 5 7 :=
  C1_streaming_equivalence [[1, 2], [], [3]] 5 7 (by decide) (by decide) (by decide)

/-! ### Claim C2 -/

/-- Claim C2: `fast_mod_65519` equals `x % 65519` on its documented input
domain (up to `(MODULUS_16 - 1) * 2^16 + 0xFFFF`), `fast_mod_4294967291`
equals `x % 4294967291` for `x < 2^40`, and in both the pre-correction value
is strictly below twice the modulus, so one conditional subtraction
suffices. -/
theorem C2_fast_mod_correct (x y : ℕ)
    (hx : x ≤ (MODULUS_16 - 1) * 2^16 + 0xFFFF) (hy : y < 2^40) :
    fast_mod_65519 x = x % 65519 ∧ fast_mod_65519_pre x < 2 * MODULUS_16 ∧
      fast_mod_4294967291 y = y % 4294967291 ∧
      fast_mod_4294967291_pre y < 2 * MODULUS_32 := by
  have hx32 : x < 2^32 := by
    rw [ MODULUS_16_eq] at hx
    omega
  refine ⟨fast_mod_65519_eq x hx32, ?_, fast_mod_4294967291_eq y hy, ?_⟩
  · rw [ MODULUS_16_eq]
    exact fast_mod_65519_pre_lt x hx32
  · rw [ MODULUS_32_eq]
    exact fast_mod_4294967291_pre_lt y hy

/-- Witness for claim C2 at `x = 70000`, `y = 2^39`. -/
theorem C2_fast_mod_correct_witness :
    fast_mod_65519 70000 = 70000 % 65519 ∧ fast_mod_65519_pre 70000 < 2 * MODULUS_16 ∧
      fast_mod_4294967291 (2^39) = 2^39 % 4294967291 ∧
      fast_mod_4294967291_pre (2^39) < 2 * MODULUS_32 :=
  C2_fast_mod_correct 70000 (2^39) (by decide) (by decide)

/-! ### Claim C3 -/

/-- The three `_with_modulus` one-shot functions each compute the spec's Horner
recurrence (`specHorner`), for any modulus within the width's range. -/
def WithModulusIsHorner (data : List ℕ) (seed : ℕ) : Prop :=
  (∀ m, 0 < m → m ≤ 2^8 → koopman8_with_modulus data seed m = specHorner data seed m 1 8) ∧
  (∀ m, 0 < m → m ≤ 2^16 → koopman16_with_modulus data seed m = specHorner data seed m 2 16) ∧
  (∀ m, 0 < m → m ≤ 2^32 → koopman32_with_modulus data seed m = specHorner data seed m 4 32)

/-- Claim C3: for every non-empty `data`, every seed, and every non-zero
modulus `m ≤ 2^N`, `koopmanN_with_modulus data seed m` equals the Horner
recurrence of the spec (seeded with `data[0] XOR seed`, `N/8` implicit zero
bytes appended, result truncated to `N` bits). -/
theorem C3_horner_recurrence (data : List ℕ) (seed : ℕ) (hne : data ≠ [])
    (hb : ∀ b ∈ data, b < 256) (hs : seed < 256) :
    WithModulusIsHorner data seed := by
  refine ⟨?_, ?_, ?_⟩
  · intro m hm hm8
    exact koopman8_with_modulus_eq_spec data seed m hb hs hm hm8
  · intro m hm hm16
    exact koopman16_with_modulus_eq_spec data seed m hb hs hm hm16
  · intro m hm hm32
    exact koopman32_with_modulus_eq_spec data seed m hb hs hm hm32

/-- Witness for claim C3 at `data = [7, 8]`, `seed = 3`. -/
theorem C3_horner_recurrence_witness : WithModulusIsHorner [7, 8] 3 :=
  C3_horner_recurrence [7, 8] 3 (by decide) (by decide) (by decide)

/-! ### Claim C4 -/

/-- Each default one-shot function agrees with its `_with_modulus` sibling at
the documented default modulus. -/
def DefaultsMatchWithModulus (data : List ℕ) (seed : ℕ) : Prop :=
  koopman8 data seed = koopman8_with_modulus data seed 253 ∧
  koopman16 data seed = koopman16_with_modulus data seed 65519 ∧
  koopman32 data seed = koopman32_with_modulus data seed 4294967291 ∧
  koopman8p data seed = koopman8p_with_modulus data seed 125 ∧
  koopman16p data seed = koopman16p_with_modulus data seed 32749 ∧
  koopman32p data seed = koopman32p_with_modulus data seed 2147483629

/-- Claim C4: the default one-shot functions equal the `_with_modulus`
functions applied at the documented default moduli; in particular
`koopman16`'s delayed reduction via `fast_mod_65519` and `koopman32`'s
per-byte `fast_mod_4294967291` produce the same output as the generic
per-byte `%` path. -/
theorem C4_default_modulus_agreement (data : List ℕ) (seed : ℕ)
    (hb : ∀ b ∈ data, b < 256) (hs : seed < 256) :
    DefaultsMatchWithModulus data seed := by
  refine ⟨rfl, ?_, ?_, rfl, rfl, rfl⟩
  · rw [koopman16_eq_spec data seed hb hs,
      koopman16_with_modulus_eq_spec data seed 65519 hb hs (by decide) (by decide)]
  · rw [koopman32_eq_spec data seed hb hs,
      koopman32_with_modulus_eq_spec data seed 4294967291 hb hs (by decide) (by decide)]

/-- Witness for claim C4 at `data = [1, 2, 3]`, `seed = 9`. -/
theorem C4_default_modulus_agreement_witness : DefaultsMatchWithModulus [1, 2, 3] 9 :=
  C4_default_modulus_agreement [1, 2, 3] 9 (by decide) (by decide)

/-! ### Claim C6 -/

/-- Claim C6 counterexample: `koopman8_with_modulus` with the out-of-range
modulus 1000 (> 2^8) does not fault: on input `[1]` the final residue is 256,
and the function silently returns its truncation `256 % 2^8 = 0`. -/
theorem C6_out_of_range_modulus_counterexample :
    2^8 < 1000 ∧ koopman8_with_modulus [1] 0 1000 = 0 ∧
      genShift (2^32) 1000 ((1:ℕ) ^^^ 0) = 256 ∧ (256:ℕ) % 2^8 = 0 := by
  decide

lemma parity8_lt_two (x : ℕ) : parity8 x < 2 := by
  rw [parity8, Nat.and_one_is_mod]
  omega

lemma pack_lt (outW x p : ℕ) (hp : p < 2) (hW : 1 ≤ outW) :
    ((x % 2^outW) <<< 1) % 2^outW ||| p < 2^outW := by
  apply Nat.or_lt_two_pow
  · exact Nat.mod_lt _ (by positivity)
  · have h2 : (2:ℕ) ≤ 2^outW := by
      calc (2:ℕ) = 2^1 := by norm_num
      _ ≤ 2^outW := Nat.pow_le_pow_right (by norm_num) hW
    omega

/-- Claim C6 amended: a modulus exceeding the output width is accepted without
any fault; every `_with_modulus` function is total and always returns the final
residue silently truncated to the output width (only the zero modulus is
excluded, structurally, by the `NonZeroU32`/`NonZeroU64` argument types). -/
theorem C6_amended_silent_truncation (data : List ℕ) (seed m : ℕ) (hm : 0 < m) :
    koopman8_with_modulus data seed m < 2^8 ∧
      koopman16_with_modulus data seed m < 2^16 ∧
      koopman32_with_modulus data seed m < 2^32 ∧
      koopman8p_with_modulus data seed m < 2^8 ∧
      koopman16p_with_modulus data seed m < 2^16 ∧
      koopman32p_with_modulus data seed m < 2^32 := by
  refine ⟨?_, ?_, ?_, ?_, ?_, ?_⟩ <;> cases data with
  | nil =>
    simp only [koopman8_with_modulus, koopman16_with_modulus, koopman32_with_modulus,
      koopman8p_with_modulus, koopman16p_with_modulus, koopman32p_with_modulus]
    positivity
  | cons b0 rest =>
    first
    | (simp only [koopman8_with_modulus, koopman16_with_modulus, koopman32_with_modulus]
       exact Nat.mod_lt _ (by norm_num))
    | (simp only [koopman8p_with_modulus, koopman16p_with_modulus, koopman32p_with_modulus]
       exact pack_lt _ _ _ (parity8_lt_two _) (by norm_num))

/-- Witness for the amended claim C6 at `data = [255, 255]`, `seed = 0`,
`m = 100000`. -/
theorem C6_amended_silent_truncation_witness :
    koopman8_with_modulus [255, 255] 0 100000 < 2^8 ∧
      koopman16_with_modulus [255, 255] 0 100000 < 2^16 ∧
      koopman32_with_modulus [255, 255] 0 100000 < 2^32 ∧
      koopman8p_with_modulus [255, 255] 0 100000 < 2^8 ∧
      koopman16p_with_modulus [255, 255] 0 100000 < 2^16 ∧
      koopman32p_with_modulus [255, 255] 0 100000 < 2^32 :=
  C6_amended_silent_truncation [255, 255] 0 100000 (by decide)

/-! ### Claim C7 -/

/-- The parity `_with_modulus` functions pack the spec's Horner core, shifted
left by one, with the parity (population count mod 2) of the XOR-fold seeded
with `data[0] XOR seed` in the least-significant bit. -/
def ParityPacksChecksumAndParity (data : List ℕ) (seed : ℕ) : Prop :=
  (∀ m, 0 < m → m ≤ 2^7 → koopman8p_with_modulus data seed m
      = (specHornerCore data seed m 1 <<< 1) ||| (popCount (specPsum data seed) % 2)) ∧
  (∀ m, 0 < m → m ≤ 2^15 → koopman16p_with_modulus data seed m
      = (specHornerCore data seed m 2 <<< 1) ||| (popCount (specPsum data seed) % 2)) ∧
  (∀ m, 0 < m → m ≤ 2^31 → koopman32p_with_modulus data seed m
      = (specHornerCore data seed m 4 <<< 1) ||| (popCount (specPsum data seed) % 2))

/-- Claim C7: `koopmanNp_with_modulus data seed m` returns `(c << 1) | p` where
`c` is the Horner checksum with `N/8` implicit zero appends and `p` is the
population count mod 2 of the parity accumulator seeded with
`data[0] XOR seed`. -/
theorem C7_parity_packing (data : List ℕ) (seed : ℕ) (hne : data ≠ [])
    (hb : ∀ b ∈ data, b < 256) (hs : seed < 256) :
    ParityPacksChecksumAndParity data seed := by
  refine ⟨?_, ?_, ?_⟩
  · intro m hm hm7
    exact koopman8p_with_modulus_eq_spec data seed m hb hs hm hm7
  · intro m hm hm15
    exact koopman16p_with_modulus_eq_spec data seed m hb hs hm hm15
  · intro m hm hm31
    exact koopman32p_with_modulus_eq_spec data seed m hb hs hm hm31

/-- Witness for claim C7 at `data = [4, 5]`, `seed = 6`. -/
theorem C7_parity_packing_witness : ParityPacksChecksumAndParity [4, 5] 6 :=
  C7_parity_packing [4, 5] 6 (by decide) (by decide) (by decide)

/-! ### Claim C8 -/

/-- After feeding junk, `reset` restores the constructor-time seed (not zero),
so a further `update data; finalize` reproduces the one-shot checksum with that
seed: one conjunct per streaming hasher type constructed with `with_seed`. -/
def ResetRestoresSeed (junk data : List ℕ) (s : ℕ) : Prop :=
  (Koopman8.finalize (Koopman8.update
      (Koopman8.reset (Koopman8.update (Koopman8.with_seed s) junk)) data)
    = koopman8 data s) ∧
  (Koopman16.finalize (Koopman16.update
      (Koopman16.reset (Koopman16.update (Koopman16.with_seed s) junk)) data)
    = koopman16 data s) ∧
  (Koopman32.finalize (Koopman32.update
      (Koopman32.reset (Koopman32.update (Koopman32.with_seed s) junk)) data)
    = koopman32 data s) ∧
  (Koopman8P.finalize (Koopman8P.update
      (Koopman8P.reset (Koopman8P.update (Koopman8P.with_seed s) junk)) data)
    = koopman8p data s) ∧
  (Koopman16P.finalize (Koopman16P.update
      (Koopman16P.reset (Koopman16P.update (Koopman16P.with_seed s) junk)) data)
    = koopman16p data s) ∧
  (Koopman32P.finalize (Koopman32P.update
      (Koopman32P.reset (Koopman32P.update (Koopman32P.with_seed s) junk)) data)
    = koopman32p data s)

/-- Claim C8: for every hasher constructed with `with_seed s`, every junk byte
sequence and every data byte sequence, `update junk; reset; update data;
finalize` equals the one-shot checksum of `data` with seed `s`. -/
theorem C8_reset_restores_seed (junk data : List ℕ) (s : ℕ)
    (hb : ∀ b ∈ data, b < 256) (hs : s < 256) :
    ResetRestoresSeed junk data s := by
  have hps : s % 2^8 = s := Nat.mod_eq_of_lt (by omega)
  have h8 : Koopman8.reset (Koopman8.update (Koopman8.with_seed s) junk)
      = Koopman8.with_seed s := by
    show hasherReset (hasherUpdate (2^32) identity_mod_8 (Koopman8.with_seed s) junk)
      = Koopman8.with_seed s
    rw [hasherReset_update]
    rfl
  have h16 : Koopman16.reset (Koopman16.update (Koopman16.with_seed s) junk)
      = Koopman16.with_seed s := by
    show hasherReset (hasherUpdate (2^32) fast_mod_65519 (Koopman16.with_seed s) junk)
      = Koopman16.with_seed s
    rw [hasherReset_update]
    rfl
  have h32 : Koopman32.reset (Koopman32.update (Koopman32.with_seed s) junk)
      = Koopman32.with_seed s := by
    show hasherReset (hasherUpdate (2^64) fast_mod_4294967291 (Koopman32.with_seed s) junk)
      = Koopman32.with_seed s
    rw [hasherReset_update]
    rfl
  have h8p : Koopman8P.reset (Koopman8P.update (Koopman8P.with_seed s) junk)
      = Koopman8P.with_seed s := by
    show parityHasherReset (parityHasherUpdate (2^32) (Koopman8P.with_seed s) junk)
      = Koopman8P.with_seed s
    rw [parityHasherReset_update]
    simp [parityHasherReset, Koopman8P.with_seed, parityHasherWithSeed, hps] <;> omega
  have h16p : Koopman16P.reset (Koopman16P.update (Koopman16P.with_seed s) junk)
      = Koopman16P.with_seed s := by
    show parityHasherReset (parityHasherUpdate (2^32) (Koopman16P.with_seed s) junk)
      = Koopman16P.with_seed s
    rw [parityHasherReset_update]
    simp [parityHasherReset, Koopman16P.with_seed, parityHasherWithSeed, hps] <;> omega
  have h32p : Koopman32P.reset (Koopman32P.update (Koopman32P.with_seed s) junk)
      = Koopman32P.with_seed s := by
    show parityHasherReset (parityHasherUpdate (2^64) (Koopman32P.with_seed s) junk)
      = Koopman32P.with_seed s
    rw [parityHasherReset_update]
    simp [parityHasherReset, Koopman32P.with_seed, parityHasherWithSeed, hps] <;> omega
  refine ⟨?_, ?_, ?_, ?_, ?_, ?_⟩
  · rw [h8]
    exact koopman8_stream_fast data (Koopman8.with_seed s) rfl rfl
  · rw [h16, koopman16_stream_fast data hb (Koopman16.with_seed s) rfl rfl hs]
    exact (koopman16_eq_spec data s hb hs).symm
  · rw [h32, koopman32_stream_fast data hb (Koopman32.with_seed s) rfl rfl hs]
    exact (koopman32_eq_spec data s hb hs).symm
  · rw [h8p]
    exact koopman8p_stream MODULUS_7P data hb (Koopman8P.with_seed s) rfl rfl hs rfl
  · rw [h16p]
    exact koopman16p_stream MODULUS_15P data hb (Koopman16P.with_seed s) rfl rfl hs rfl
  · rw [h32p]
    exact koopman32p_stream MODULUS_31P data hb (Koopman32P.with_seed s) rfl rfl hs rfl

/-- Witness for claim C8 at `junk = [9, 9, 9]`, `data = [1, 2]`, `s = 42`. -/
theorem C8_reset_restores_seed_witness : ResetRestoresSeed [9, 9, 9] [1, 2] 42 :=
  C8_reset_restores_seed [9, 9, 9] [1, 2] 42 (by decide) (by decide)

/-! ### Claim C9 -/

/-- Every one-shot function returns 0 on empty input, every streaming
`finalize` on a never-fed (`initialized = false`) state returns 0, all
constructors and `reset` produce such states, and empty-slice updates are
no-ops. -/
def EmptyChecksumIsZero (s m : ℕ) : Prop :=
  (koopman8 [] s = 0 ∧ koopman16 [] s = 0 ∧ koopman32 [] s = 0 ∧
    koopman8p [] s = 0 ∧ koopman16p [] s = 0 ∧ koopman32p [] s = 0) ∧
  (koopman8_with_modulus [] s m = 0 ∧ koopman16_with_modulus [] s m = 0 ∧
    koopman32_with_modulus [] s m = 0 ∧ koopman8p_with_modulus [] s m = 0 ∧
    koopman16p_with_modulus [] s m = 0 ∧ koopman32p_with_modulus [] s m = 0) ∧
  (∀ h : KoopmanState, h.initialized = false →
    Koopman8.finalize h = 0 ∧ Koopman16.finalize h = 0 ∧ Koopman32.finalize h = 0) ∧
  (∀ h : KoopmanPState, h.initialized = false →
    Koopman8P.finalize h = 0 ∧ Koopman16P.finalize h = 0 ∧ Koopman32P.finalize h = 0) ∧
  (∀ dm, (hasherNew dm).initialized = false ∧ (hasherWithSeed dm s).initialized = false ∧
    (hasherWithModulus dm m).initialized = false) ∧
  (∀ dm, (parityHasherNew dm).initialized = false ∧
    (parityHasherWithSeed dm s).initialized = false ∧
    (parityHasherWithModulus m).initialized = false) ∧
  (∀ h : KoopmanState, (hasherReset h).initialized = false) ∧
  (∀ h : KoopmanPState, (parityHasherReset h).initialized = false) ∧
  (∀ (W : ℕ) (fm : ℕ → ℕ) (h : KoopmanState), hasherUpdate W fm h [] = h) ∧
  (∀ (W : ℕ) (h : KoopmanPState), parityHasherUpdate W h [] = h)

/-- Claim C9: for every variant and every seed (and every non-zero modulus for
the `_with_modulus` variants), the checksum of the empty byte sequence is 0;
every streaming hasher finalized with no bytes ever supplied — fresh from any
constructor, after a reset, or after only empty-slice updates — returns 0. -/
theorem C9_empty_is_zero (s m : ℕ) (hs : s < 256) (hm : 0 < m) :
    EmptyChecksumIsZero s m := by
  refine ⟨⟨rfl, rfl, rfl, rfl, rfl, rfl⟩, ⟨rfl, rfl, rfl, rfl, rfl, rfl⟩,
    ?_, ?_, fun dm => ⟨rfl, rfl, rfl⟩, fun dm => ⟨rfl, rfl, rfl⟩,
    fun h => rfl, fun h => rfl, fun W fm h => rfl, fun W h => rfl⟩
  · intro h hi
    refine ⟨?_, ?_, ?_⟩ <;> simp [Koopman8.finalize, Koopman16.finalize, Koopman32.finalize,
      hasherFinalize, hi]
  · intro h hi
    refine ⟨?_, ?_, ?_⟩ <;> simp [Koopman8P.finalize, Koopman16P.finalize, Koopman32P.finalize,
      parityHasherFinalize, hi]

/-- Witness for claim C9 at `s = 42`, `m = 7`. -/
theorem C9_empty_is_zero_witness : EmptyChecksumIsZero 42 7 :=
  C9_empty_is_zero 42 7 (by decide) (by decide)

/-! ### Claim C10 -/

lemma runHasher_fields (W : ℕ) (fm : ℕ → ℕ) :
    ∀ (ops : List HasherOp) (h : KoopmanState),
      (runHasher W fm h ops).modulus = h.modulus ∧
        (runHasher W fm h ops).seed = h.seed ∧
        (runHasher W fm h ops).use_fast_mod = h.use_fast_mod := by
  intro ops
  induction ops with
  | nil => exact fun h => ⟨rfl, rfl, rfl⟩
  | cons op rest ih =>
    intro h
    cases op with
    | upd d =>
      obtain ⟨i1, i2, i3⟩ := ih (hasherUpdate W fm h d)
      obtain ⟨u1, u2, u3⟩ := hasherUpdate_fields W fm h d
      exact ⟨i1.trans u1, i2.trans u2, i3.trans u3⟩
    | rst =>
      obtain ⟨i1, i2, i3⟩ := ih (hasherReset h)
      exact ⟨i1, i2, i3⟩

lemma runParityHasher_fields (W : ℕ) :
    ∀ (ops : List HasherOp) (h : KoopmanPState),
      (runParityHasher W h ops).modulus = h.modulus ∧
        (runParityHasher W h ops).seed = h.seed := by
  intro ops
  induction ops with
  | nil => exact fun h => ⟨rfl, rfl⟩
  | cons op rest ih =>
    intro h
    cases op with
    | upd d =>
      obtain ⟨i1, i2⟩ := ih (parityHasherUpdate W h d)
      obtain ⟨u1, u2⟩ := parityHasherUpdate_fields W h d
      exact ⟨i1.trans u1, i2.trans u2⟩
    | rst =>
      obtain ⟨i1, i2⟩ := ih (parityHasherReset h)
      exact ⟨i1, i2⟩

/-- Claim C10: across any sequence of `update` and `reset` calls, the modulus
field, the stored seed field, and the fast-path flag of a streaming hasher are
never modified; in particular a hasher built by `with_modulus m` still carries
modulus `m` (with its original fast-path eligibility) afterwards.  Stated for
the parameterized operations, which cover all six hasher types. -/
theorem C10_frame_fields (W : ℕ) (fm : ℕ → ℕ) (ops : List HasherOp)
    (h : KoopmanState) (hp : KoopmanPState) (dm m : ℕ) :
    (runHasher W fm h ops).modulus = h.modulus ∧
      (runHasher W fm h ops).seed = h.seed ∧
      (runHasher W fm h ops).use_fast_mod = h.use_fast_mod ∧
      (runParityHasher W hp ops).modulus = hp.modulus ∧
      (runParityHasher W hp ops).seed = hp.seed ∧
      (runHasher W fm (hasherWithModulus dm m) ops).modulus = m ∧
      (runHasher W fm (hasherWithModulus dm m) ops).use_fast_mod = (m == dm) ∧
      (runParityHasher W (parityHasherWithModulus m) ops).modulus = m := by
  obtain ⟨a1, a2, a3⟩ := runHasher_fields W fm ops h
  obtain ⟨b1, b2⟩ := runParityHasher_fields W ops hp
  obtain ⟨c1, _, c3⟩ := runHasher_fields W fm ops (hasherWithModulus dm m)
  obtain ⟨d1, _⟩ := runParityHasher_fields W ops (parityHasherWithModulus m)
  exact ⟨a1, a2, a3, b1, b2, c1, c3, d1⟩

/-! ### Claim C5: closed form of the checksum as a base-256 value mod m -/

/-- The byte list read as a base-256 number, starting from accumulator `a`. -/
def hval (l : List ℕ) (a : ℕ) : ℕ := l.foldl (fun s b => s * 256 + b) a

/-- The message with the seed XORed into its first byte (spec §4.1 step 2). -/
def seedData (data : List ℕ) (seed : ℕ) : List ℕ :=
  match data with
  | [] => []
  | b0 :: rest => (b0 ^^^ seed) :: rest

lemma hval_affine (l : List ℕ) : ∀ a : ℕ, hval l a = a * 256^l.length + hval l 0 := by
  induction l with
  | nil => intro a; simp [hval]
  | cons b t ih =>
    intro a
    show hval t (a * 256 + b) = a * 256^(b :: t).length + hval t (0 * 256 + b)
    rw [ih (a * 256 + b), ih (0 * 256 + b)]
    simp only [List.length_cons]
    ring

lemma hval_modEq_start (m : ℕ) (l : List ℕ) {a a' : ℕ} (h : a ≡ a' [MOD m]) :
    hval l a ≡ hval l a' [MOD m] := by
  rw [hval_affine l a, hval_affine l a']
  exact ((h.mul_right (256^l.length)).add_right (hval l 0))

lemma foldl_pureStep_modEq (m : ℕ) (l : List ℕ) :
    ∀ a a' : ℕ, a ≡ a' [MOD m] → l.foldl (pureStep m) a ≡ hval l a' [MOD m] := by
  induction l with
  | nil => exact fun a a' h => h
  | cons b t ih =>
    intro a a' h
    show t.foldl (pureStep m) (pureStep m a b) ≡ hval t (a' * 256 + b) [MOD m]
    apply ih
    rw [pureStep_eq]
    calc (a * 256 + b) % m ≡ a * 256 + b [MOD m] := Nat.mod_modEq _ m
    _ ≡ a' * 256 + b [MOD m] := (h.mul_right 256).add_right b

lemma repeat_pureShift_modEq (m : ℕ) : ∀ (k s : ℕ),
    Nat.repeat (pureShift m) k s ≡ s * 256^k [MOD m] := by
  intro k
  induction k with
  | zero =>
    intro s
    show s ≡ s * 256^0 [MOD m]
    rw [pow_zero, Nat.mul_one]
  | succ n ih =>
    intro s
    show pureShift m (Nat.repeat (pureShift m) n s) ≡ s * 256^(n+1) [MOD m]
    rw [pureShift_eq]
    calc Nat.repeat (pureShift m) n s * 256 % m
        ≡ Nat.repeat (pureShift m) n s * 256 [MOD m] := Nat.mod_modEq _ m
    _ ≡ s * 256^n * 256 [MOD m] := (ih s).mul_right 256
    _ = s * 256^(n+1) := by ring

lemma specHorner_closed (data : List ℕ) (seed m shifts outW : ℕ) (hne : data ≠ [])
    (hm : 0 < m) (hsh : 0 < shifts) (hmout : m ≤ 2^outW) :
    specHorner data seed m shifts outW = hval (seedData data seed) 0 * 256^shifts % m := by
  cases data with
  | nil => exact absurd rfl hne
  | cons b0 rest =>
    have hcore_lt : Nat.repeat (pureShift m) shifts (rest.foldl (pureStep m) (b0 ^^^ seed)) < m :=
      repeat_pureShift_lt m hm shifts _ hsh
    have hmodeq : Nat.repeat (pureShift m) shifts (rest.foldl (pureStep m) (b0 ^^^ seed))
        ≡ hval rest (0 * 256 + (b0 ^^^ seed)) * 256^shifts [MOD m] := by
      calc Nat.repeat (pureShift m) shifts (rest.foldl (pureStep m) (b0 ^^^ seed))
          ≡ rest.foldl (pureStep m) (b0 ^^^ seed) * 256^shifts [MOD m] :=
            repeat_pureShift_modEq m shifts _
      _ ≡ hval rest (0 * 256 + (b0 ^^^ seed)) * 256^shifts [MOD m] :=
            (foldl_pureStep_modEq m rest _ _ (by rw [Nat.zero_mul, Nat.zero_add])).mul_right _
    show Nat.repeat (pureShift m) shifts (rest.foldl (pureStep m) (b0 ^^^ seed)) % 2^outW
      = hval rest (0 * 256 + (b0 ^^^ seed)) * 256^shifts % m
    rw [Nat.mod_eq_of_lt (by omega)]
    calc Nat.repeat (pureShift m) shifts (rest.foldl (pureStep m) (b0 ^^^ seed))
        = Nat.repeat (pureShift m) shifts (rest.foldl (pureStep m) (b0 ^^^ seed)) % m :=
          (Nat.mod_eq_of_lt hcore_lt).symm
    _ = hval rest (0 * 256 + (b0 ^^^ seed)) * 256^shifts % m := hmodeq

/-! ### Claim C5: effect of a bit flip on the base-256 value -/

lemma hval_set (l : List ℕ) : ∀ (i a b' : ℕ), i < l.length →
    hval (l.set i b') a + l.getD i 0 * 256^(l.length - 1 - i)
      = hval l a + b' * 256^(l.length - 1 - i) := by
  induction l with
  | nil => intro i a b' hi; simp at hi
  | cons c t ih =>
    intro i a b' hi
    cases i with
    | zero =>
      show hval t (a * 256 + b') + c * 256^((c :: t).length - 1 - 0)
        = hval t (a * 256 + c) + b' * 256^((c :: t).length - 1 - 0)
      rw [hval_affine t (a * 256 + b'), hval_affine t (a * 256 + c)]
      simp only [List.length_cons]
      have he : (t.length + 1) - 1 - 0 = t.length := by omega
      rw [he]
      ring
    | succ i' =>
      have hi' : i' < t.length := by
        simp only [List.length_cons] at hi
        omega
      show hval (t.set i' b') (a * 256 + c) + (c :: t).getD (i' + 1) 0
          * 256^((c :: t).length - 1 - (i' + 1))
        = hval t (a * 256 + c) + b' * 256^((c :: t).length - 1 - (i' + 1))
      have hg : (c :: t).getD (i' + 1) 0 = t.getD i' 0 := rfl
      have he : (c :: t).length - 1 - (i' + 1) = t.length - 1 - i' := by
        simp only [List.length_cons]
        omega
      rw [hg, he]
      exact ih i' (a * 256 + c) b' hi'

lemma xor_pow_flip : ∀ k < 8, ∀ b < 256,
    b ^^^ 2^k = b + 2^k ∨ (b ^^^ 2^k) + 2^k = b := by decide

lemma two_pow_mul_exppow (k e : ℕ) : 2^k * 256^e = 2^(k + 8*e) := by
  rw [show (256:ℕ) = 2^8 from rfl, ← pow_mul, ← pow_add]

lemma hval_flip_rel (l : List ℕ) (hb : ∀ b ∈ l, b < 256) (i k : ℕ)
    (hi : i < l.length) (hk : k < 8) :
    hval (flipDataBit l i k) 0 = hval l 0 + 2^(k + 8*(l.length - 1 - i))
      ∨ hval (flipDataBit l i k) 0 + 2^(k + 8*(l.length - 1 - i)) = hval l 0 := by
  have hbyte : l.getD i 0 < 256 := by
    rw [List.getD_eq_getElem l 0 hi]
    exact hb _ (List.getElem_mem hi)
  have hset := hval_set l i 0 (l.getD i 0 ^^^ 2^k) hi
  rw [flipDataBit, ← two_pow_mul_exppow]
  set b' := l.getD i 0 ^^^ 2^k with hb'
  set w := 256^(l.length - 1 - i) with hw
  rcases xor_pow_flip k hk (l.getD i 0) hbyte with hc | hc
  · left
    have hbw : b' * w = l.getD i 0 * w + 2^k * w := by rw [hb', hc, Nat.add_mul]
    omega
  · right
    have hbw : b' * w + 2^k * w = l.getD i 0 * w := by rw [← Nat.add_mul, hb', hc]
    omega

lemma flipDataBit_length (l : List ℕ) (i k : ℕ) : (flipDataBit l i k).length = l.length := by
  simp [flipDataBit]

lemma two_pow_lt_256 {k : ℕ} (hk : k < 8) : (2:ℕ)^k < 256 := by
  calc (2:ℕ)^k < 2^8 := Nat.pow_lt_pow_right (by norm_num) hk
  _ = 256 := by norm_num

lemma flipDataBit_bytes (l : List ℕ) (hb : ∀ b ∈ l, b < 256) (i k : ℕ)
    (hk : k < 8) (hi : i < l.length) : ∀ b ∈ flipDataBit l i k, b < 256 := by
  intro b hbm
  rw [flipDataBit] at hbm
  rcases List.mem_or_eq_of_mem_set hbm with h | h
  · exact hb b h
  · subst h
    have hbyte : l.getD i 0 < 256 := by
      rw [List.getD_eq_getElem l 0 hi]
      exact hb _ (List.getElem_mem hi)
    exact xor_lt_256 hbyte (two_pow_lt_256 hk)

lemma seedData_length (data : List ℕ) (seed : ℕ) :
    (seedData data seed).length = data.length := by
  cases data <;> rfl

lemma seedData_bytes (data : List ℕ) (seed : ℕ) (hb : ∀ b ∈ data, b < 256)
    (hs : seed < 256) : ∀ b ∈ seedData data seed, b < 256 := by
  cases data with
  | nil => intro b hbm; simp [seedData] at hbm
  | cons b0 rest =>
    intro b hbm
    rcases List.mem_cons.mp hbm with h | h
    · subst h
      exact xor_lt_256 (hb b0 (by simp)) hs
    · exact hb b (by simp [h])

lemma seedData_flip (data : List ℕ) (seed i k : ℕ) (hi : i < data.length) :
    seedData (flipDataBit data i k) seed = flipDataBit (seedData data seed) i k := by
  cases data with
  | nil => simp at hi
  | cons b0 rest =>
    cases i with
    | zero =>
      simp only [flipDataBit, seedData, List.set_cons_zero, List.getD_cons_zero]
      rw [Nat.xor_assoc, Nat.xor_comm (2^k) seed, ← Nat.xor_assoc]
    | succ i' =>
      simp only [flipDataBit, seedData, List.set_cons_succ, List.getD_cons_succ]

/-! ### Claim C5: number-theoretic collision lemmas -/

lemma dvd_of_modeq_add (m X Y : ℕ) (h : (X + Y) % m = X % m) : m ∣ Y := by
  have hmod : X ≡ X + Y [MOD m] := h.symm
  have hd := (Nat.modEq_iff_dvd' (Nat.le_add_right X Y)).mp hmod
  rwa [Nat.add_sub_cancel_left] at hd

lemma coprime_two_pow (m t : ℕ) (hco : Nat.Coprime 2 m) : Nat.Coprime m (2^t) :=
  (hco.pow_left t).symm

lemma single_flip_impossible (m t q V V' : ℕ) (hm : 1 < m) (hco : Nat.Coprime 2 m)
    (hrel : V' = V + 2^q ∨ V' + 2^q = V) :
    V' * 2^t % m ≠ V * 2^t % m := by
  intro heq
  have hdvd : m ∣ 2^q * 2^t := by
    rcases hrel with h | h
    · apply dvd_of_modeq_add m (V * 2^t) (2^q * 2^t)
      have e : V * 2^t + 2^q * 2^t = V' * 2^t := by rw [h]; ring
      rw [e]
      exact heq
    · apply dvd_of_modeq_add m (V' * 2^t) (2^q * 2^t)
      have e : V' * 2^t + 2^q * 2^t = V * 2^t := by rw [← h]; ring
      rw [e]
      exact heq.symm
  rw [← pow_add] at hdvd
  have hcop : Nat.Coprime m (2^(q+t)) := coprime_two_pow m (q+t) hco
  have hg := Nat.dvd_gcd (dvd_refl m) hdvd
  have hone : Nat.gcd m (2^(q+t)) = 1 := hcop
  rw [hone] at hg
  have := Nat.dvd_one.mp hg
  omega

lemma modeq_sum_two_pow (m t q2 d : ℕ) (hm : 1 < m) (hco : Nat.Coprime 2 m)
    (hdvd : m ∣ (2^(q2+d) + 2^q2) * 2^t) : (2^d + 1) % m = 0 := by
  have hsplit : (2^(q2+d) + 2^q2) * 2^t = 2^q2 * ((2^d + 1) * 2^t) := by
    rw [pow_add]
    ring
  rw [hsplit] at hdvd
  have h1 : m ∣ (2^d + 1) * 2^t := (coprime_two_pow m q2 hco).dvd_of_dvd_mul_left hdvd
  have h2 : m ∣ 2^d + 1 := (coprime_two_pow m t hco).dvd_of_dvd_mul_right h1
  exact Nat.mod_eq_zero_of_dvd h2

lemma modeq_pow_mul_cancel (m t q2 d : ℕ) (hm : 1 < m) (hco : Nat.Coprime 2 m)
    (h : 2^(q2+d) * 2^t % m = 2^q2 * 2^t % m) : 2^d % m = 1 := by
  have hle : 2^q2 * 2^t ≤ 2^(q2+d) * 2^t :=
    Nat.mul_le_mul_right _ (Nat.pow_le_pow_right (by norm_num) (by omega))
  have hmodeq : 2^q2 * 2^t ≡ 2^(q2+d) * 2^t [MOD m] := h.symm
  have hdvd := (Nat.modEq_iff_dvd' hle).mp hmodeq
  have hone : (1:ℕ) ≤ 2^d := Nat.one_le_two_pow
  have hfact : 2^(q2+d) * 2^t - 2^q2 * 2^t = 2^q2 * 2^t * (2^d - 1) := by
    have h1 : 2^q2 * 2^t * (2^d - 1) + 2^q2 * 2^t = 2^(q2+d) * 2^t := by
      have h2 : (2^d - 1) + 1 = 2^d := by omega
      calc 2^q2 * 2^t * (2^d - 1) + 2^q2 * 2^t = 2^q2 * 2^t * ((2^d - 1) + 1) := by ring
      _ = 2^q2 * 2^t * 2^d := by rw [h2]
      _ = 2^(q2+d) * 2^t := by rw [pow_add]; ring
    omega
  rw [hfact, mul_assoc] at hdvd
  have h1 : m ∣ 2^t * (2^d - 1) := (coprime_two_pow m q2 hco).dvd_of_dvd_mul_left hdvd
  have h2 : m ∣ 2^d - 1 := (coprime_two_pow m t hco).dvd_of_dvd_mul_left h1
  have h3 : 1 ≡ 2^d [MOD m] := (Nat.modEq_iff_dvd' hone).mpr h2
  have h4 : 2^d % m = 1 % m := h3.symm
  rwa [Nat.mod_eq_of_lt hm] at h4

lemma mixed_case_impossible (m t D q1 q2 : ℕ) (hm : 1 < m) (hco : Nat.Coprime 2 m)
    (hord : ∀ d, 0 < d → d ≤ D → 2^d % m ≠ 1 ∧ (2^d + 1) % m ≠ 0)
    (hq1 : q1 ≤ D) (hq2 : q2 ≤ D) (hne : q1 ≠ q2)
    (h : 2^q1 * 2^t ≡ 2^q2 * 2^t [MOD m]) : False := by
  rcases Nat.lt_or_ge q1 q2 with hlt | hge
  · have hd : q2 = q1 + (q2 - q1) := by omega
    have h' : 2^(q1 + (q2 - q1)) * 2^t % m = 2^q1 * 2^t % m := by
      rw [← hd]
      exact h.symm
    exact (hord (q2 - q1) (by omega) (by omega)).1
      (modeq_pow_mul_cancel m t q1 (q2 - q1) hm hco h')
  · have hd : q1 = q2 + (q1 - q2) := by omega
    have h' : 2^(q2 + (q1 - q2)) * 2^t % m = 2^q2 * 2^t % m := by
      rw [← hd]
      exact h
    exact (hord (q1 - q2) (by omega) (by omega)).1
      (modeq_pow_mul_cancel m t q2 (q1 - q2) hm hco h')

lemma sum_case_impossible (m t D q1 q2 : ℕ) (hm : 1 < m) (hco : Nat.Coprime 2 m)
    (hord : ∀ d, 0 < d → d ≤ D → 2^d % m ≠ 1 ∧ (2^d + 1) % m ≠ 0)
    (hq1 : q1 ≤ D) (hq2 : q2 ≤ D) (hne : q1 ≠ q2)
    (hdvd : m ∣ (2^q1 + 2^q2) * 2^t) : False := by
  rcases Nat.lt_or_ge q1 q2 with hlt | hge
  · have hd : q2 = q1 + (q2 - q1) := by omega
    have hdvd' : m ∣ (2^(q1 + (q2 - q1)) + 2^q1) * 2^t := by
      rw [← hd, Nat.add_comm (2^q2) (2^q1)]
      exact hdvd
    exact (hord (q2 - q1) (by omega) (by omega)).2
      (modeq_sum_two_pow m t q1 (q2 - q1) hm hco hdvd')
  · have hd : q1 = q2 + (q1 - q2) := by omega
    have hdvd' : m ∣ (2^(q2 + (q1 - q2)) + 2^q2) * 2^t := by
      rw [← hd]
      exact hdvd
    exact (hord (q1 - q2) (by omega) (by omega)).2
      (modeq_sum_two_pow m t q2 (q1 - q2) hm hco hdvd')

lemma two_flip_collision_impossible (m t D q1 q2 V V'' : ℕ) (hm : 1 < m)
    (hco : Nat.Coprime 2 m)
    (hord : ∀ d, 0 < d → d ≤ D → 2^d % m ≠ 1 ∧ (2^d + 1) % m ≠ 0)
    (hq1 : q1 ≤ D) (hq2 : q2 ≤ D) (hne : q1 ≠ q2)
    (hrel : V'' = V + 2^q1 + 2^q2 ∨ V'' + 2^q1 + 2^q2 = V ∨
      V'' + 2^q2 = V + 2^q1 ∨ V'' + 2^q1 = V + 2^q2) :
    V'' * 2^t % m ≠ V * 2^t % m := by
  intro heq
  rcases hrel with h | h | h | h
  · have hdvd : m ∣ (2^q1 + 2^q2) * 2^t := by
      apply dvd_of_modeq_add m (V * 2^t) ((2^q1 + 2^q2) * 2^t)
      have e : V * 2^t + (2^q1 + 2^q2) * 2^t = V'' * 2^t := by rw [h]; ring
      rw [e]
      exact heq
    exact sum_case_impossible m t D q1 q2 hm hco hord hq1 hq2 hne hdvd
  · have hdvd : m ∣ (2^q1 + 2^q2) * 2^t := by
      apply dvd_of_modeq_add m (V'' * 2^t) ((2^q1 + 2^q2) * 2^t)
      have e : V'' * 2^t + (2^q1 + 2^q2) * 2^t = V * 2^t := by rw [← h]; ring
      rw [e]
      exact heq.symm
    exact sum_case_impossible m t D q1 q2 hm hco hord hq1 hq2 hne hdvd
  · have e : V'' * 2^t + 2^q2 * 2^t = V * 2^t + 2^q1 * 2^t := by
      rw [← Nat.add_mul, ← Nat.add_mul, h]
    have ha : V * 2^t + 2^q1 * 2^t ≡ V * 2^t + 2^q2 * 2^t [MOD m] := by
      calc V * 2^t + 2^q1 * 2^t = V'' * 2^t + 2^q2 * 2^t := e.symm
      _ ≡ V * 2^t + 2^q2 * 2^t [MOD m] :=
        (show V'' * 2^t ≡ V * 2^t [MOD m] from heq).add_right (2^q2 * 2^t)
    have h1 : 2^q1 * 2^t ≡ 2^q2 * 2^t [MOD m] := Nat.ModEq.add_left_cancel' (V * 2^t) ha
    exact mixed_case_impossible m t D q1 q2 hm hco hord hq1 hq2 hne h1
  · have e : V'' * 2^t + 2^q1 * 2^t = V * 2^t + 2^q2 * 2^t := by
      rw [← Nat.add_mul, ← Nat.add_mul, h]
    have ha : V * 2^t + 2^q2 * 2^t ≡ V * 2^t + 2^q1 * 2^t [MOD m] := by
      calc V * 2^t + 2^q2 * 2^t = V'' * 2^t + 2^q1 * 2^t := e.symm
      _ ≡ V * 2^t + 2^q1 * 2^t [MOD m] :=
        (show V'' * 2^t ≡ V * 2^t [MOD m] from heq).add_right (2^q1 * 2^t)
    have h1 : 2^q2 * 2^t ≡ 2^q1 * 2^t [MOD m] := Nat.ModEq.add_left_cancel' (V * 2^t) ha
    exact mixed_case_impossible m t D q2 q1 hm hco hord hq2 hq1 (by omega) h1

lemma hd3_generic (m shifts outW D : ℕ) (hm1 : 1 < m) (hsh : 0 < shifts)
    (hmout : m ≤ 2^outW) (hco : Nat.Coprime 2 m)
    (hord : ∀ d, 0 < d → d ≤ D → 2^d % m ≠ 1 ∧ (2^d + 1) % m ≠ 0)
    (data : List ℕ) (seed : ℕ) (hb : ∀ b ∈ data, b < 256) (hs : seed < 256)
    (hlen : 8 * (data.length - 1) + 7 ≤ D) :
    (∀ i k, i < data.length → k < 8 →
      specHorner (flipDataBit data i k) seed m shifts outW
        ≠ specHorner data seed m shifts outW) ∧
    (∀ i k j l, i < data.length → k < 8 → j < data.length → l < 8 → (i, k) ≠ (j, l) →
      specHorner (flipDataBit (flipDataBit data i k) j l) seed m shifts outW
        ≠ specHorner data seed m shifts outW) := by
  have hmpos : 0 < m := by omega
  have hT : (256:ℕ)^shifts = 2^(8*shifts) := by
    rw [show (256:ℕ) = 2^8 from rfl, ← pow_mul]
  have hSb : ∀ b ∈ seedData data seed, b < 256 := seedData_bytes data seed hb hs
  have hSl : (seedData data seed).length = data.length := seedData_length data seed
  constructor
  · intro i k hi hk heq
    have hne : data ≠ [] := by
      intro h
      subst h
      simp at hi
    have hflipne : flipDataBit data i k ≠ [] := by
      intro h
      have hl := flipDataBit_length data i k
      rw [h] at hl
      simp at hl
      omega
    rw [specHorner_closed data seed m shifts outW hne hmpos hsh hmout,
        specHorner_closed (flipDataBit data i k) seed m shifts outW hflipne hmpos hsh hmout,
        seedData_flip data seed i k hi, hT] at heq
    have hrel := hval_flip_rel (seedData data seed) hSb i k (by omega) hk
    rw [hSl] at hrel
    exact single_flip_impossible m (8*shifts) (k + 8*(data.length - 1 - i))
      (hval (seedData data seed) 0) (hval (flipDataBit (seedData data seed) i k) 0)
      hm1 hco hrel heq
  · intro i k j l hi hk hj hl hne12 heq
    have hne : data ≠ [] := by
      intro h
      subst h
      simp at hi
    have h1len : (flipDataBit data i k).length = data.length := flipDataBit_length data i k
    have h1ne : flipDataBit data i k ≠ [] := by
      intro h
      rw [h] at h1len
      simp at h1len
      omega
    have h2len : (flipDataBit (flipDataBit data i k) j l).length = data.length := by
      rw [flipDataBit_length, h1len]
    have h2ne : flipDataBit (flipDataBit data i k) j l ≠ [] := by
      intro h
      rw [h] at h2len
      simp at h2len
      omega
    rw [specHorner_closed data seed m shifts outW hne hmpos hsh hmout,
        specHorner_closed (flipDataBit (flipDataBit data i k) j l) seed m shifts outW
          h2ne hmpos hsh hmout,
        seedData_flip (flipDataBit data i k) seed j l (by omega),
        seedData_flip data seed i k hi, hT] at heq
    have hrel1 := hval_flip_rel (seedData data seed) hSb i k (by omega) hk
    have hflipSb : ∀ b ∈ flipDataBit (seedData data seed) i k, b < 256 :=
      flipDataBit_bytes (seedData data seed) hSb i k hk (by omega)
    have hrel2 := hval_flip_rel (flipDataBit (seedData data seed) i k) hflipSb j l
      (by rw [flipDataBit_length]; omega) hl
    rw [hSl] at hrel1
    rw [flipDataBit_length, hSl] at hrel2
    have hq1 : k + 8*(data.length - 1 - i) ≤ D := by omega
    have hq2 : l + 8*(data.length - 1 - j) ≤ D := by omega
    have hneq : k + 8*(data.length - 1 - i) ≠ l + 8*(data.length - 1 - j) := by
      intro hq
      apply hne12
      have hij : i = j ∧ k = l := by omega
      rw [hij.1, hij.2]
    have hrel : hval (flipDataBit (flipDataBit (seedData data seed) i k) j l) 0
        = hval (seedData data seed) 0 + 2^(k + 8*(data.length - 1 - i))
            + 2^(l + 8*(data.length - 1 - j))
      ∨ hval (flipDataBit (flipDataBit (seedData data seed) i k) j l) 0
            + 2^(k + 8*(data.length - 1 - i)) + 2^(l + 8*(data.length - 1 - j))
          = hval (seedData data seed) 0
      ∨ hval (flipDataBit (flipDataBit (seedData data seed) i k) j l) 0
            + 2^(l + 8*(data.length - 1 - j))
          = hval (seedData data seed) 0 + 2^(k + 8*(data.length - 1 - i))
      ∨ hval (flipDataBit (flipDataBit (seedData data seed) i k) j l) 0
            + 2^(k + 8*(data.length - 1 - i))
          = hval (seedData data seed) 0 + 2^(l + 8*(data.length - 1 - j)) := by
      rcases hrel1 with h1 | h1 <;> rcases hrel2 with h2 | h2 <;> omega
    exact two_flip_collision_impossible m (8*shifts) D
      (k + 8*(data.length - 1 - i)) (l + 8*(data.length - 1 - j))
      (hval (seedData data seed) 0)
      (hval (flipDataBit (flipDataBit (seedData data seed) i k) j l) 0)
      hm1 hco hord hq1 hq2 hneq hrel heq

/-! ### Claim C5: order of 2 modulo 253 and 65519 -/

lemma ordfacts253 : ∀ d < 104, 0 < d → 2^d % 253 ≠ 1 ∧ (2^d + 1) % 253 ≠ 0 := by decide

lemma zmod_two_pow (n : ℕ) : (2 : ZMod 65519)^n = ((2^n % 65519 : ℕ) : ZMod 65519) := by
  rw [ZMod.natCast_mod]
  push_cast
  norm_num

lemma two_pow_32759 : (2 : ZMod 65519)^32759 = 1 := by
  rw [zmod_two_pow]
  norm_num

lemma ord_not_dvd_1927 : ¬ orderOf (2 : ZMod 65519) ∣ 1927 := by
  intro h
  have hp : (2 : ZMod 65519)^1927 = 1 := orderOf_dvd_iff_pow_eq_one.mp h
  rw [zmod_two_pow] at hp
  rw [show (2:ℕ)^1927 % 65519 = 57068 by norm_num] at hp
  have hv := congrArg ZMod.val hp
  haveI : Fact (1 < 65519) := ⟨by norm_num⟩
  rw [ZMod.val_natCast_of_lt (by norm_num), ZMod.val_one] at hv
  exact absurd hv (by norm_num)

lemma ord_not_dvd_799 : ¬ orderOf (2 : ZMod 65519) ∣ 799 := by
  intro h
  have hp : (2 : ZMod 65519)^799 = 1 := orderOf_dvd_iff_pow_eq_one.mp h
  rw [zmod_two_pow] at hp
  rw [show (2:ℕ)^799 % 65519 = 47005 by norm_num] at hp
  have hv := congrArg ZMod.val hp
  haveI : Fact (1 < 65519) := ⟨by norm_num⟩
  rw [ZMod.val_natCast_of_lt (by norm_num), ZMod.val_one] at hv
  exact absurd hv (by norm_num)

lemma ord_not_dvd_697 : ¬ orderOf (2 : ZMod 65519) ∣ 697 := by
  intro h
  have hp : (2 : ZMod 65519)^697 = 1 := orderOf_dvd_iff_pow_eq_one.mp h
  rw [zmod_two_pow] at hp
  rw [show (2:ℕ)^697 % 65519 = 16604 by norm_num] at hp
  have hv := congrArg ZMod.val hp
  haveI : Fact (1 < 65519) := ⟨by norm_num⟩
  rw [ZMod.val_natCast_of_lt (by norm_num), ZMod.val_one] at hv
  exact absurd hv (by norm_num)

lemma dvd_32759_cases (n : ℕ) (hd : n ∣ 32759) (hlt : n < 32759) :
    n ∣ 1927 ∨ n ∣ 799 ∨ n ∣ 697 := by
  obtain ⟨c, hc⟩ := hd
  have hcpos : 2 ≤ c := by
    rcases Nat.lt_or_ge c 2 with h | h
    · interval_cases c <;> omega
    · exact h
  have hcdvd : c ∣ 32759 := ⟨n, by rw [hc]; ring⟩
  by_cases h17 : 17 ∣ c
  · left
    obtain ⟨c', hc'⟩ := h17
    refine ⟨c', ?_⟩
    have h1 : 17 * 1927 = 17 * (n * c') := by
      rw [show (17:ℕ) * 1927 = 32759 by norm_num, hc, hc']
      ring
    exact Nat.eq_of_mul_eq_mul_left (by norm_num) h1
  by_cases h41 : 41 ∣ c
  · right; left
    obtain ⟨c', hc'⟩ := h41
    refine ⟨c', ?_⟩
    have h1 : 41 * 799 = 41 * (n * c') := by
      rw [show (41:ℕ) * 799 = 32759 by norm_num, hc, hc']
      ring
    exact Nat.eq_of_mul_eq_mul_left (by norm_num) h1
  by_cases h47 : 47 ∣ c
  · right; right
    obtain ⟨c', hc'⟩ := h47
    refine ⟨c', ?_⟩
    have h1 : 47 * 697 = 47 * (n * c') := by
      rw [show (47:ℕ) * 697 = 32759 by norm_num, hc, hc']
      ring
    exact Nat.eq_of_mul_eq_mul_left (by norm_num) h1
  · exfalso
    have hc17 : Nat.Coprime 17 c := (Nat.Prime.coprime_iff_not_dvd (by norm_num)).mpr h17
    have hd1 : c ∣ 17 * 1927 := by
      rw [show (17:ℕ) * 1927 = 32759 by norm_num]
      exact hcdvd
    have hd2 : c ∣ 1927 := hc17.symm.dvd_of_dvd_mul_left hd1
    have hc41 : Nat.Coprime 41 c := (Nat.Prime.coprime_iff_not_dvd (by norm_num)).mpr h41
    rw [show (1927:ℕ) = 41 * 47 by norm_num] at hd2
    have hd3 : c ∣ 47 := hc41.symm.dvd_of_dvd_mul_left hd2
    rcases (Nat.Prime.eq_one_or_self_of_dvd (by norm_num) c hd3) with h | h
    · omega
    · exact h47 (by rw [h])

lemma cast_65518_eq_neg_one : ((65518:ℕ) : ZMod 65519) = -1 := by
  have hself : ((65518:ℕ) : ZMod 65519) + 1 = 0 := by
    have h0 : ((65519:ℕ) : ZMod 65519) = 0 := ZMod.natCast_self 65519
    calc ((65518:ℕ) : ZMod 65519) + 1 = ((65518 + 1 : ℕ) : ZMod 65519) := by push_cast; ring
    _ = 0 := by norm_num at h0 ⊢; exact h0
  exact eq_neg_of_add_eq_zero_left hself

lemma ordfacts65519 : ∀ d, 0 < d → d ≤ 32735 → 2^d % 65519 ≠ 1 ∧ (2^d + 1) % 65519 ≠ 0 := by
  intro d hd hD
  have hordvd : orderOf (2 : ZMod 65519) ∣ 32759 := orderOf_dvd_of_pow_eq_one two_pow_32759
  have hcontra : ¬ orderOf (2 : ZMod 65519) ∣ d := by
    intro hdd
    have hle : orderOf (2 : ZMod 65519) ≤ d := Nat.le_of_dvd hd hdd
    have hlt : orderOf (2 : ZMod 65519) < 32759 := by omega
    rcases dvd_32759_cases _ hordvd hlt with h | h | h
    · exact ord_not_dvd_1927 h
    · exact ord_not_dvd_799 h
    · exact ord_not_dvd_697 h
  constructor
  · intro h1
    apply hcontra
    apply orderOf_dvd_of_pow_eq_one
    rw [zmod_two_pow, h1]
    exact Nat.cast_one
  · intro hneg
    have h65518 : 2^d % 65519 = 65518 := by omega
    have hz : (2 : ZMod 65519)^d = -1 := by
      rw [zmod_two_pow, h65518]
      exact cast_65518_eq_neg_one
    have hz2 : (2 : ZMod 65519)^(2*d) = 1 := by
      rw [two_mul, pow_add, hz]
      ring
    have hdvd2 : orderOf (2 : ZMod 65519) ∣ 2*d := orderOf_dvd_of_pow_eq_one hz2
    have hodd : ¬ 2 ∣ orderOf (2 : ZMod 65519) := by
      intro h2
      have h3 : (2:ℕ) ∣ 32759 := dvd_trans h2 hordvd
      norm_num at h3
    have hcop : Nat.Coprime (orderOf (2 : ZMod 65519)) 2 :=
      ((Nat.Prime.coprime_iff_not_dvd Nat.prime_two).mpr hodd).symm
    exact hcontra (hcop.dvd_of_dvd_mul_left hdvd2)

/-! ### Claim C5: the theorem -/

/-- Flipping any single bit, or any two distinct bits, of a message changes
`koopman8` (for messages up to 13 bytes) and `koopman16` (for messages up to
4092 bytes), for every seed. -/
def HdThreeDetection (data : List ℕ) (seed : ℕ) : Prop :=
  (data.length ≤ 13 →
    (∀ i k, i < data.length → k < 8 →
      koopman8 (flipDataBit data i k) seed ≠ koopman8 data seed) ∧
    (∀ i k j l, i < data.length → k < 8 → j < data.length → l < 8 → (i, k) ≠ (j, l) →
      koopman8 (flipDataBit (flipDataBit data i k) j l) seed ≠ koopman8 data seed)) ∧
  (data.length ≤ 4092 →
    (∀ i k, i < data.length → k < 8 →
      koopman16 (flipDataBit data i k) seed ≠ koopman16 data seed) ∧
    (∀ i k j l, i < data.length → k < 8 → j < data.length → l < 8 → (i, k) ≠ (j, l) →
      koopman16 (flipDataBit (flipDataBit data i k) j l) seed ≠ koopman16 data seed))

/-- Claim C5: for every message of length at most 13 bytes and every seed,
flipping any one or any two bits of the message changes `koopman8`
(modulus 253); for every message of length at most 4092 bytes and every seed,
flipping any one or any two bits changes `koopman16` (modulus 65519). -/
theorem C5_hd3_bit_flip_detection (data : List ℕ) (seed : ℕ)
    (hb : ∀ b ∈ data, b < 256) (hs : seed < 256) : HdThreeDetection data seed := by
  constructor
  · intro hlen13
    have hord : ∀ d, 0 < d → d ≤ 103 → 2^d % 253 ≠ 1 ∧ (2^d + 1) % 253 ≠ 0 :=
      fun d hd hD => ordfacts253 d (by omega) hd
    obtain ⟨h1, h2⟩ := hd3_generic 253 1 8 103 (by norm_num) (by norm_num) (by norm_num)
      (by decide) hord data seed hb hs (by omega)
    constructor
    · intro i k hi hk
      have hb1 : ∀ b ∈ flipDataBit data i k, b < 256 := flipDataBit_bytes data hb i k hk hi
      have e0 : koopman8 data seed = specHorner data seed 253 1 8 :=
        koopman8_with_modulus_eq_spec data seed 253 hb hs (by norm_num) (by norm_num)
      have e1 : koopman8 (flipDataBit data i k) seed
          = specHorner (flipDataBit data i k) seed 253 1 8 :=
        koopman8_with_modulus_eq_spec _ seed 253 hb1 hs (by norm_num) (by norm_num)
      rw [e0, e1]
      exact h1 i k hi hk
    · intro i k j l hi hk hj hl hne
      have hb1 : ∀ b ∈ flipDataBit data i k, b < 256 := flipDataBit_bytes data hb i k hk hi
      have hb2 : ∀ b ∈ flipDataBit (flipDataBit data i k) j l, b < 256 :=
        flipDataBit_bytes _ hb1 j l hl (by rw [flipDataBit_length]; omega)
      have e0 : koopman8 data seed = specHorner data seed 253 1 8 :=
        koopman8_with_modulus_eq_spec data seed 253 hb hs (by norm_num) (by norm_num)
      have e2 : koopman8 (flipDataBit (flipDataBit data i k) j l) seed
          = specHorner (flipDataBit (flipDataBit data i k) j l) seed 253 1 8 :=
        koopman8_with_modulus_eq_spec _ seed 253 hb2 hs (by norm_num) (by norm_num)
      rw [e0, e2]
      exact h2 i k j l hi hk hj hl hne
  · intro hlen4092
    obtain ⟨h1, h2⟩ := hd3_generic 65519 2 16 32735 (by norm_num) (by norm_num) (by norm_num)
      (by decide) ordfacts65519 data seed hb hs (by omega)
    constructor
    · intro i k hi hk
      have hb1 : ∀ b ∈ flipDataBit data i k, b < 256 := flipDataBit_bytes data hb i k hk hi
      rw [koopman16_eq_spec data seed hb hs, koopman16_eq_spec _ seed hb1 hs]
      exact h1 i k hi hk
    · intro i k j l hi hk hj hl hne
      have hb1 : ∀ b ∈ flipDataBit data i k, b < 256 := flipDataBit_bytes data hb i k hk hi
      have hb2 : ∀ b ∈ flipDataBit (flipDataBit data i k) j l, b < 256 :=
        flipDataBit_bytes _ hb1 j l hl (by rw [flipDataBit_length]; omega)
      rw [koopman16_eq_spec data seed hb hs, koopman16_eq_spec _ seed hb2 hs]
      exact h2 i k j l hi hk hj hl hne

/-- Witness for claim C5 at `data = [1, 2]`, `seed = 0`. -/
theorem C5_hd3_bit_flip_detection_witness : HdThreeDetection [1, 2] 0 :=
  C5_hd3_bit_flip_detection [1, 2] 0 (by decide) (by decide)
